import Mathlib

/-!
Verification of the response-parsing core of ScriptEngineerPro
(`src/groqService.ts`, `src/types.ts`).

Strings are modelled as `List Char` (`Str`).  The JavaScript string
operations used by the source (`trim`, `split`, `includes`, `startsWith`,
`substring(1)`, `parseInt`, the `x || d` falsiness idiom, and the two
header-stripping regex replaces) are given explicit executable models, and
`parseModelResponse` is embedded as a fold of a per-line step function
`processLine` over the '\n'-split input, exactly mirroring the branch
structure of the source.
-/

/-- Strings, modelled as lists of characters. -/
abbrev Str := List Char

/-- Whitespace as recognised by JavaScript `trim` and `\s` (the ASCII
whitespace characters plus NBSP and the BOM; further exotic Unicode space
separators are not used anywhere in this development). -/
def isWS (c : Char) : Bool :=
  c = ' ' || c = '\t' || c = '\n' || c = '\r' || c = '\u000b' || c = '\u000c' ||
  c = ' ' || c = '﻿'

/-- JavaScript `String.prototype.trim`: strip leading and trailing whitespace. -/
def jsTrim (s : Str) : Str :=
  ((s.dropWhile isWS).reverse.dropWhile isWS).reverse

/-- JavaScript `String.prototype.split` with a single-character separator:
`"".split(c) = [""]`, and separators delimit (possibly empty) fields. -/
def splitOnChar (sep : Char) : Str → List Str
  | [] => [[]]
  | c :: rest =>
    let r := splitOnChar sep rest
    if c = sep then [] :: r else (c :: r.headD []) :: r.tail

/-- JavaScript `String.prototype.includes`: substring containment. -/
def containsStr : Str → Str → Bool
  | [], pat => pat.isEmpty
  | s@(_ :: rest), pat => pat.isPrefixOf s || containsStr rest pat

/-- Decimal digit test (for `parseInt` with radix 10). -/
def isDecDigit (c : Char) : Bool := '0' ≤ c && c ≤ '9'

/-- Hexadecimal digit test (for `parseInt` on a `0x`/`0X` prefix). -/
def isHexDig (c : Char) : Bool :=
  isDecDigit c || ('a' ≤ c && c ≤ 'f') || ('A' ≤ c && c ≤ 'F')

/-- Numeric value of a digit character. -/
def digVal (c : Char) : Nat :=
  if isDecDigit c then c.toNat - '0'.toNat
  else if 'a' ≤ c && c ≤ 'f' then c.toNat - 'a'.toNat + 10
  else if 'A' ≤ c && c ≤ 'F' then c.toNat - 'A'.toNat + 10
  else 0

/-- JavaScript `parseInt(s)` (no explicit radix): skip leading whitespace,
an optional sign, an optional `0x`/`0X` hexadecimal prefix, then read the
longest run of digits; `none` models the `NaN` result when no digit is
found. -/
def jsParseInt (s : Str) : Option Int :=
  let s1 := s.dropWhile isWS
  let signNeg : Bool := match s1 with | '-' :: _ => true | _ => false
  let s2 : Str := match s1 with | '-' :: r => r | '+' :: r => r | _ => s1
  let hexRest : Option Str :=
    match s2 with
    | '0' :: 'x' :: r => some r
    | '0' :: 'X' :: r => some r
    | _ => none
  let isHex : Bool := hexRest.isSome
  let s3 : Str := hexRest.getD s2
  let ds := s3.takeWhile (fun c => if isHex then isHexDig c else isDecDigit c)
  if ds.isEmpty then none
  else
    let n : Nat := ds.foldl (fun a c => a * (if isHex then 16 else 10) + digVal c) 0
    some (if signNeg then -(n : Int) else (n : Int))

/-- The JavaScript idiom `parseInt(x) || d`: `NaN` and `0` (and `-0`) are
falsy, so both fall back to the default `d`. -/
def jsOrElse (v : Option Int) (d : Int) : Int :=
  match v with
  | none => d
  | some n => if n = 0 then d else n

/-- Model of the first-match regex replace
`s.replace(/.*?MARKER:?\s*`/, '')` used for the summary and usage headers:
locate the first occurrence of the marker and return what follows it, less
an optional colon and subsequent whitespace; if the marker does not occur
the string is unchanged. `splitFirstInfix pat s` returns the first
decomposition `s = pre ++ pat ++ post`. -/
def splitFirstInfix (pat : Str) : Str → Option (Str × Str)
  | [] => if pat.isEmpty then some ([], []) else none
  | s@(c :: rest) =>
    if pat.isPrefixOf s then some ([], s.drop pat.length)
    else
      match splitFirstInfix pat rest with
      | none => none
      | some (pre, post) => some (c :: pre, post)

/-- See `splitFirstInfix`: the effect of the header-stripping replace. -/
def stripHeaderAfter (pat : Str) (s : Str) : Str :=
  match splitFirstInfix pat s with
  | none => s
  | some (_, post) =>
    let post2 := match post with | ':' :: r => r | _ => post
    post2.dropWhile isWS

/-! ## Data model (`src/types.ts`) -/

/-- `interface FailureSimulation` of `src/types.ts`. -/
structure FailureSimulation where
  scenario : Str
  trigger : Str
  behavior : Str
deriving DecidableEq, Repr

/-- `interface ValueMetrics` of `src/types.ts`. -/
structure ValueMetrics where
  timeSavedMinutes : Int
  linesProduced : Int
  potentialErrorsMitigated : Int
deriving DecidableEq, Repr

/-- `interface ScriptResponse` of `src/types.ts` (the optional text fields
are always assigned strings by the parser, so they are plain `Str` here). -/
structure ScriptResponse where
  summary : Str
  assumptions : List Str
  script : Str
  tests : Str
  dockerfile : Str
  cicd : Str
  failureSimulations : List FailureSimulation
  metrics : ValueMetrics
  usage : Str
deriving DecidableEq, Repr

/-! ## The parser (`parseModelResponse` of `src/groqService.ts`) -/

/-- The values taken by the `currentSection` string variable (besides
`null`, modelled by `Option`). -/
inductive SectionTag where
  | summary | assumptions | script | tests | dockerfile | cicd | failures | usage
deriving DecidableEq, Repr

/-- The mutable state of the line loop: the record under construction plus
the two control variables. -/
structure ParseState where
  sections : ScriptResponse
  currentSection : Option SectionTag
  inCodeBlock : Bool
deriving DecidableEq, Repr

/-- The initial `sections` record (lines 88–98 of `src/groqService.ts`). -/
def initResponse : ScriptResponse :=
  { summary := [], assumptions := [], script := [], tests := [], dockerfile := [],
    cicd := [], failureSimulations := [],
    metrics := { timeSavedMinutes := 0, linesProduced := 0, potentialErrorsMitigated := 0 },
    usage := [] }

/-- Loop state before the first line. -/
def initState : ParseState :=
  { sections := initResponse, currentSection := none, inCodeBlock := false }

/-- Marker substring `'🧠 Summary'`. -/
def summaryMarker : Str := "🧠 Summary".data

/-- Marker substring `'⚙️ Assumptions'`. -/
def assumptionsMarker : Str := "⚙️ Assumptions".data

/-- Marker substring `'📜 Script'`. -/
def scriptMarker : Str := "📜 Script".data

/-- Marker substring `'🧪 Tests'`. -/
def testsMarker : Str := "🧪 Tests".data

/-- Marker substring `'🐳 Dockerfile'`. -/
def dockerfileMarker : Str := "🐳 Dockerfile".data

/-- Marker substring `'🚀 CI/CD'`. -/
def cicdMarker : Str := "🚀 CI/CD".data

/-- Marker substring `'☢️ Failure Simulations'`. -/
def failuresMarker : Str := "☢️ Failure Simulations".data

/-- Marker substring `'📊 Metrics'`. -/
def metricsMarker : Str := "📊 Metrics".data

/-- Marker substring `'▶️ Usage'`. -/
def usageMarker : Str := "▶️ Usage".data

/-- All nine marker substrings, in branch order. -/
def allMarkers : List Str :=
  [summaryMarker, assumptionsMarker, scriptMarker, testsMarker, dockerfileMarker,
   cicdMarker, failuresMarker, metricsMarker, usageMarker]

/-- The code-fence token `'```'`. -/
def fenceTok : Str := "```".data

/-- The literal sentinel `'N/A'`. -/
def nASentinel : Str := "N/A".data

/-- The metrics record built from a `≥ 4`-part metrics line
(lines 129–133: `parseInt(parts[i]) || d`). -/
def metricsOfParts (parts : List Str) : ValueMetrics :=
  { timeSavedMinutes := jsOrElse (jsParseInt (parts.getD 1 [])) 30,
    linesProduced := jsOrElse (jsParseInt (parts.getD 2 [])) 0,
    potentialErrorsMitigated := jsOrElse (jsParseInt (parts.getD 3 [])) 5 }

/-- `['script','tests','dockerfile','cicd'].includes(currentSection || '')`. -/
def isCodeSection (cs : Option SectionTag) : Bool :=
  match cs with
  | some .script | some .tests | some .dockerfile | some .cicd => true
  | _ => false

/-- The four sequential conditional appends of lines 157–160. -/
def appendCodeLine (s : ScriptResponse) (cs : Option SectionTag) (line : Str) : ScriptResponse :=
  let s1 := if cs = some .script then { s with script := s.script ++ line ++ ['\n'] } else s
  let s2 := if cs = some .tests then { s1 with tests := s1.tests ++ line ++ ['\n'] } else s1
  let s3 := if cs = some .dockerfile then { s2 with dockerfile := s2.dockerfile ++ line ++ ['\n'] } else s2
  if cs = some .cicd then { s3 with cicd := s3.cicd ++ line ++ ['\n'] } else s3

/-- Entering the summary section (lines 107–109): set `currentSection` and
capture the header remainder. -/
def summaryHeaderStep (st : ParseState) (trimmed : Str) : ParseState :=
  { st with currentSection := some .summary,
            sections := { st.sections with
              summary := jsTrim (stripHeaderAfter summaryMarker trimmed) } }

/-- Entering the assumptions or failures section (lines 110–111, 124–125):
only the section changes. -/
def setSection (st : ParseState) (tag : SectionTag) : ParseState :=
  { st with currentSection := some tag }

/-- Entering one of the four code sections (lines 112–123): change section
and reset `inCodeBlock`. -/
def codeHeaderStep (st : ParseState) (tag : SectionTag) : ParseState :=
  { st with currentSection := some tag, inCodeBlock := false }

/-- The metrics-marker leaf action (lines 126–134): split the trimmed line
on `'|'`, trim the parts, and when at least 4 result store the metrics
record; the section is untouched. -/
def metricsLineStep (st : ParseState) (trimmed : Str) : ParseState :=
  if 4 ≤ ((splitOnChar '|' trimmed).map jsTrim).length then
    { st with sections := { st.sections with
        metrics := metricsOfParts ((splitOnChar '|' trimmed).map jsTrim) } }
  else st

/-- Entering the usage section (lines 135–137): set `currentSection` and
capture the header remainder. -/
def usageHeaderStep (st : ParseState) (trimmed : Str) : ParseState :=
  { st with currentSection := some .usage,
            sections := { st.sections with
              usage := jsTrim (stripHeaderAfter usageMarker trimmed) } }

/-- Summary accumulation (lines 138–141): append the trimmed line with a
separating space unless it already occurs in the summary. -/
def summaryAccumStep (st : ParseState) (trimmed : Str) : ParseState :=
  if containsStr st.sections.summary trimmed then st
  else { st with sections := { st.sections with
          summary := st.sections.summary ++
            (if st.sections.summary = [] then [] else [' ']) ++ trimmed } }

/-- Assumptions accumulation (lines 142–143): strip the bullet and push. -/
def assumptionsAccumStep (st : ParseState) (trimmed : Str) : ParseState :=
  { st with sections := { st.sections with
      assumptions := st.sections.assumptions ++ [jsTrim (trimmed.drop 1)] } }

/-- Failures accumulation (lines 144–152): strip the bullet, split on
`'|'`, trim, and push a record when at least 3 parts result. -/
def failuresAccumStep (st : ParseState) (trimmed : Str) : ParseState :=
  if 3 ≤ ((splitOnChar '|' (trimmed.drop 1)).map jsTrim).length then
    { st with sections := { st.sections with
        failureSimulations := st.sections.failureSimulations ++
          [{ scenario := ((splitOnChar '|' (trimmed.drop 1)).map jsTrim).getD 0 [],
             trigger := ((splitOnChar '|' (trimmed.drop 1)).map jsTrim).getD 1 [],
             behavior := ((splitOnChar '|' (trimmed.drop 1)).map jsTrim).getD 2 [] }] } }
  else st

/-- Code-section accumulation (lines 153–161): a line starting with the
fence token toggles `inCodeBlock`; any other line is appended raw. -/
def codeLineStep (st : ParseState) (line trimmed : Str) : ParseState :=
  if fenceTok.isPrefixOf trimmed then { st with inCodeBlock := !st.inCodeBlock }
  else { st with sections := appendCodeLine st.sections st.currentSection line }

/-- Usage accumulation (lines 162–164). -/
def usageAccumStep (st : ParseState) (trimmed : Str) : ParseState :=
  { st with sections := { st.sections with
      usage := st.sections.usage ++
        (if st.sections.usage = [] then [] else [' ']) ++ trimmed } }

/-- One iteration of the `lines.forEach` body (lines 104–165 of
`src/groqService.ts`), branch for branch, in source order. -/
def processLine (st : ParseState) (line : Str) : ParseState :=
  let trimmed := jsTrim line
  if containsStr trimmed summaryMarker then summaryHeaderStep st trimmed
  else if containsStr trimmed assumptionsMarker then setSection st .assumptions
  else if containsStr trimmed scriptMarker then codeHeaderStep st .script
  else if containsStr trimmed testsMarker then codeHeaderStep st .tests
  else if containsStr trimmed dockerfileMarker then codeHeaderStep st .dockerfile
  else if containsStr trimmed cicdMarker then codeHeaderStep st .cicd
  else if containsStr trimmed failuresMarker then setSection st .failures
  else if containsStr trimmed metricsMarker then metricsLineStep st trimmed
  else if containsStr trimmed usageMarker then usageHeaderStep st trimmed
  else if st.currentSection = some .summary ∧ trimmed ≠ [] then
    summaryAccumStep st trimmed
  else if st.currentSection = some .assumptions ∧ ['-'].isPrefixOf trimmed = true then
    assumptionsAccumStep st trimmed
  else if st.currentSection = some .failures ∧ ['-'].isPrefixOf trimmed = true then
    failuresAccumStep st trimmed
  else if isCodeSection st.currentSection then codeLineStep st line trimmed
  else if st.currentSection = some .usage ∧ trimmed ≠ [] ∧
          containsStr trimmed usageMarker = false then
    usageAccumStep st trimmed
  else st

/-- The whole line loop, as a fold. -/
def parseFold (text : Str) : ParseState :=
  (splitOnChar '\n' text).foldl processLine initState

/-- The post-pass normalisation (lines 167–171): trim the four code
buffers and blank out a literal `N/A` tests body. -/
def finalizeResponse (s : ScriptResponse) : ScriptResponse :=
  let s' := { s with script := jsTrim s.script, tests := jsTrim s.tests,
                     dockerfile := jsTrim s.dockerfile, cicd := jsTrim s.cicd }
  if s'.tests = nASentinel then { s' with tests := [] } else s'

/-- `parseModelResponse` of `src/groqService.ts` (lines 87–174). -/
def parseModelResponse (text : Str) : ScriptResponse :=
  finalizeResponse (parseFold text).sections

/-! ## The call wrapper (`generateScript` of `src/groqService.ts`) -/

/-- The outcome of the external completion call: either the SDK resolves
with a message content (possibly `null`/empty), or it rejects (network,
auth, rate limiting), carrying some error message. -/
inductive ApiOutcome where
  | success (content : Option Str)
  | apiError (msg : Str)
deriving DecidableEq, Repr

/-- `'The engine returned an empty response.'` (line 78). -/
def emptyResponseMsg : Str := "The engine returned an empty response.".data

/-- `'Failed to engineer script module. The engine encountered a verification fault.'`
(line 83). -/
def verificationFaultMsg : Str :=
  "Failed to engineer script module. The engine encountered a verification fault.".data

/-- The body of the `try` block of `generateScript` (lines 68–80): a
rejected call propagates its error; otherwise `content || ""` is checked
for emptiness (throwing the empty-response error) and parsed. -/
def generateScriptBody (outcome : ApiOutcome) : Except Str ScriptResponse :=
  match outcome with
  | .apiError e => .error e
  | .success content =>
    let text := content.getD []
    if text = [] then .error emptyResponseMsg
    else .ok (parseModelResponse text)

/-- `generateScript` (lines 54–85): the `catch` block replaces any error
thrown inside the `try` — including the empty-response error thrown at
line 78 — by the one generic verification-fault error. -/
def generateScript (outcome : ApiOutcome) : Except Str ScriptResponse :=
  match generateScriptBody outcome with
  | .ok r => .ok r
  | .error _ => .error verificationFaultMsg

/-- The first character, when there is one, is not whitespace. -/
def headNonWS : Str → Bool
  | [] => false
  | c :: _ => !isWS c

/-- No marker of `ms` occurs in `t`. -/
def noneOf (t : Str) (ms : List Str) : Prop := ∀ m ∈ ms, containsStr t m = false

/-- Every marker in one Bool test (for closed counterexample statements). -/
def containsAnyMarker (s : Str) : Bool :=
  containsStr s summaryMarker || containsStr s assumptionsMarker ||
  containsStr s scriptMarker || containsStr s testsMarker ||
  containsStr s dockerfileMarker || containsStr s cicdMarker ||
  containsStr s failuresMarker || containsStr s metricsMarker ||
  containsStr s usageMarker

/-- Modelled from the spec's words, for comparison with the source
behaviour: "a trimmed line consisting solely of a code-fence marker (three
backticks, optionally followed by a language tag)" — a language tag being a
whitespace-free token. -/
def specFenceLine (s : Str) : Bool :=
  fenceTok.isPrefixOf s && (s.drop 3).all (fun c => !isWS c)

/-- A loop state whose current section is the script section. -/
def exScriptState : ParseState :=
  { initState with currentSection := some SectionTag.script }

/-! ## Basic lemmas about the string model -/

theorem isPrefixOf_true_iff (p s : Str) : p.isPrefixOf s = true ↔ p <+: s := by
  induction p generalizing s with
  | nil => simp [List.isPrefixOf]
  | cons a as ih =>
    cases s with
    | nil => simp [List.isPrefixOf]
    | cons b bs =>
      have hstep : (a :: as).isPrefixOf (b :: bs) = (a == b && as.isPrefixOf bs) := rfl
      rw [hstep, Bool.and_eq_true, beq_iff_eq, ih, List.cons_prefix_cons]

theorem containsStr_true_iff (s p : Str) : containsStr s p = true ↔ p <:+: s := by
  induction s with
  | nil =>
    have hstep : containsStr [] p = p.isEmpty := rfl
    rw [hstep]
    simp [List.isEmpty_iff, List.infix_nil]
  | cons c rest ih =>
    have hstep : containsStr (c :: rest) p = (p.isPrefixOf (c :: rest) || containsStr rest p) := rfl
    rw [hstep, Bool.or_eq_true, isPrefixOf_true_iff, ih, List.infix_cons_iff]

theorem splitOnChar_head_tail (sep : Char) (s : Str) :
    ∀ h t, splitOnChar sep s = h :: t → h <+: s ∧ (∀ l ∈ t, l <:+: s) := by
  induction s with
  | nil =>
    intro h t he
    simp only [splitOnChar, List.cons.injEq] at he
    obtain ⟨rfl, rfl⟩ := he
    exact ⟨⟨[], rfl⟩, by simp⟩
  | cons x xs ih =>
    intro h t he
    simp only [splitOnChar] at he
    by_cases hxc : x = sep
    · rw [if_pos hxc] at he
      rw [List.cons.injEq] at he
      obtain ⟨rfl, rfl⟩ := he
      refine ⟨⟨x :: xs, rfl⟩, ?_⟩
      intro l hl
      cases hx : splitOnChar sep xs with
      | nil => rw [hx] at hl; simp at hl
      | cons h' t' =>
        obtain ⟨hp, hrest⟩ := ih h' t' hx
        rw [hx] at hl
        rcases List.mem_cons.mp hl with rfl | hl
        · exact List.infix_cons hp.isInfix
        · exact List.infix_cons (hrest l hl)
    · rw [if_neg hxc] at he
      cases hx : splitOnChar sep xs with
      | nil =>
        rw [hx] at he
        simp only [List.headD_nil, List.tail_nil, List.cons.injEq] at he
        obtain ⟨rfl, rfl⟩ := he
        exact ⟨List.cons_prefix_cons.mpr ⟨rfl, ⟨xs, rfl⟩⟩, by simp⟩
      | cons h' t' =>
        rw [hx] at he
        simp only [List.headD_cons, List.tail_cons, List.cons.injEq] at he
        obtain ⟨rfl, rfl⟩ := he
        obtain ⟨hp, hrest⟩ := ih h' t' hx
        exact ⟨List.cons_prefix_cons.mpr ⟨rfl, hp⟩, fun l hl => List.infix_cons (hrest l hl)⟩

theorem mem_splitOnChar_infixOf (sep : Char) (s : Str) :
    ∀ l ∈ splitOnChar sep s, l <:+: s := by
  cases hx : splitOnChar sep s with
  | nil => simp
  | cons h t =>
    obtain ⟨hp, hrest⟩ := splitOnChar_head_tail sep s h t hx
    intro l hl
    rcases List.mem_cons.mp hl with rfl | hl
    · exact hp.isInfix
    · exact hrest l hl

theorem mem_splitOnChar_not_mem (sep : Char) (s : Str) :
    ∀ l ∈ splitOnChar sep s, sep ∉ l := by
  induction s with
  | nil => intro l hl; simp only [splitOnChar, List.mem_singleton] at hl; simp [hl]
  | cons x xs ih =>
    intro l hl
    simp only [splitOnChar] at hl
    by_cases hxc : x = sep
    · rw [if_pos hxc] at hl
      rcases List.mem_cons.mp hl with rfl | hl
      · simp
      · exact ih l hl
    · rw [if_neg hxc] at hl
      cases hx : splitOnChar sep xs with
      | nil =>
        rw [hx] at hl
        simp only [List.headD_nil, List.tail_nil, List.mem_singleton] at hl
        subst hl
        intro hm
        rcases List.mem_cons.mp hm with rfl | hm
        · exact hxc rfl
        · simp at hm
      | cons h' t' =>
        rw [hx] at hl
        simp only [List.headD_cons, List.tail_cons] at hl
        rcases List.mem_cons.mp hl with rfl | hl
        · intro hm
          rcases List.mem_cons.mp hm with rfl | hm
          · exact hxc rfl
          · exact ih h' (hx ▸ List.mem_cons_self ..) hm
        · exact ih l (hx ▸ List.mem_cons_of_mem _ hl)

theorem prefix_through_not_mem {m a b : Str} {c : Char} (hc : c ∉ m)
    (h : m <+: a ++ c :: b) : m <+: a := by
  induction m generalizing a with
  | nil => exact ⟨a, rfl⟩
  | cons d m' ih =>
    cases a with
    | nil =>
      rw [List.nil_append] at h
      obtain ⟨h1, -⟩ := List.cons_prefix_cons.mp h
      exact absurd (h1 ▸ List.mem_cons_self ..) hc
    | cons x a' =>
      rw [List.cons_append] at h
      obtain ⟨h1, h2⟩ := List.cons_prefix_cons.mp h
      have hc' : c ∉ m' := fun hm => hc (List.mem_cons_of_mem _ hm)
      exact List.cons_prefix_cons.mpr ⟨h1, ih hc' h2⟩

theorem infix_through_not_mem {m a b : Str} {c : Char} (hc : c ∉ m)
    (h : m <:+: a ++ c :: b) : m <:+: a ∨ m <:+: b := by
  induction a with
  | nil =>
    rw [List.nil_append] at h
    rcases List.infix_cons_iff.mp h with h1 | h1
    · cases m with
      | nil => exact Or.inl ⟨[], [], rfl⟩
      | cons d m' =>
        obtain ⟨h2, -⟩ := List.cons_prefix_cons.mp h1
        exact absurd (h2 ▸ List.mem_cons_self ..) hc
    · exact Or.inr h1
  | cons x a' ih =>
    rw [List.cons_append] at h
    rcases List.infix_cons_iff.mp h with h1 | h1
    · have h2 : m <+: (x :: a') ++ c :: b := by simpa using h1
      exact Or.inl (prefix_through_not_mem hc h2).isInfix
    · rcases ih h1 with h2 | h2
      · exact Or.inl (List.infix_cons h2)
      · exact Or.inr h2


theorem infix_drop_ws_left {m a r : Str} (hm : headNonWS m = true)
    (ha : ∀ x ∈ a, isWS x = true) (h : m <:+: a ++ r) : m <:+: r := by
  induction a with
  | nil => simpa using h
  | cons x a' ih =>
    rw [List.cons_append] at h
    rcases List.infix_cons_iff.mp h with h1 | h1
    · cases m with
      | nil => simp [headNonWS] at hm
      | cons d m' =>
        obtain ⟨h2, -⟩ := List.cons_prefix_cons.mp h1
        have hx := ha x (List.mem_cons_self ..)
        rw [h2] at hm
        simp [headNonWS, hx] at hm
    · exact ih (fun x hx => ha x (List.mem_cons_of_mem _ hx)) h1

theorem infix_strip_ws {m a t b : Str} (hm1 : headNonWS m = true)
    (hm2 : headNonWS m.reverse = true)
    (ha : ∀ x ∈ a, isWS x = true) (hb : ∀ x ∈ b, isWS x = true)
    (h : m <:+: a ++ t ++ b) : m <:+: t := by
  rw [List.append_assoc] at h
  have h1 : m <:+: t ++ b := infix_drop_ws_left hm1 ha h
  have h2 : m.reverse <:+: b.reverse ++ t.reverse := by
    have h2' := h1.reverse
    rwa [List.reverse_append] at h2'
  have h3 : m.reverse <:+: t.reverse :=
    infix_drop_ws_left hm2 (fun x hx => hb x (List.mem_reverse.mp hx)) h2
  have h4 := h3.reverse
  rwa [List.reverse_reverse, List.reverse_reverse] at h4

theorem jsTrim_decomp (s : Str) :
    ∃ a b, s = a ++ jsTrim s ++ b ∧ (∀ x ∈ a, isWS x = true) ∧ (∀ x ∈ b, isWS x = true) := by
  refine ⟨s.takeWhile isWS, ((s.dropWhile isWS).reverse.takeWhile isWS).reverse, ?_, ?_, ?_⟩
  · conv_lhs => rw [← List.takeWhile_append_dropWhile (p := isWS) (l := s)]
    rw [List.append_assoc]
    congr 1
    conv_lhs => rw [← List.reverse_reverse (s.dropWhile isWS),
      ← List.takeWhile_append_dropWhile (p := isWS) (l := (s.dropWhile isWS).reverse)]
    rw [List.reverse_append]
    rfl
  · intro x hx; exact List.mem_takeWhile_imp hx
  · intro x hx; exact List.mem_takeWhile_imp (List.mem_reverse.mp hx)

theorem jsTrim_infixOf (s : Str) : jsTrim s <:+: s := by
  obtain ⟨a, b, hs, -, -⟩ := jsTrim_decomp s
  exact ⟨a, b, hs.symm⟩

/-- Every marker starts and ends with a non-whitespace character and
contains no newline. -/
theorem marker_shape :
    ∀ m ∈ allMarkers, headNonWS m = true ∧ headNonWS m.reverse = true ∧ '\n' ∉ m := by
  decide

/-- If a marker with non-whitespace endpoints does not occur in the trimmed
line, it does not occur in the raw line either. -/
theorem not_infix_of_containsStr_trim_false {l m : Str}
    (hm1 : headNonWS m = true) (hm2 : headNonWS m.reverse = true)
    (h : containsStr (jsTrim l) m = false) : ¬ m <:+: l := by
  intro hinf
  obtain ⟨a, b, hs, ha, hb⟩ := jsTrim_decomp l
  rw [hs] at hinf
  have h2 := infix_strip_ws hm1 hm2 ha hb hinf
  rw [← containsStr_true_iff] at h2
  rw [h] at h2
  cases h2


theorem noneOf_of_each {t : Str}
    (h1 : containsStr t summaryMarker = false)
    (h2 : containsStr t assumptionsMarker = false)
    (h3 : containsStr t scriptMarker = false)
    (h4 : containsStr t testsMarker = false)
    (h5 : containsStr t dockerfileMarker = false)
    (h6 : containsStr t cicdMarker = false)
    (h7 : containsStr t failuresMarker = false)
    (h8 : containsStr t metricsMarker = false)
    (h9 : containsStr t usageMarker = false) :
    noneOf t allMarkers := by
  intro m hm
  simp only [allMarkers, List.mem_cons, List.not_mem_nil, or_false] at hm
  rcases hm with rfl | rfl | rfl | rfl | rfl | rfl | rfl | rfl | rfl <;> assumption

theorem processLine_cases (st : ParseState) (l : Str) :
    (containsStr (jsTrim l) summaryMarker = true ∧
      processLine st l = summaryHeaderStep st (jsTrim l)) ∨
    (containsStr (jsTrim l) summaryMarker = false ∧
      containsStr (jsTrim l) assumptionsMarker = true ∧
      processLine st l = setSection st .assumptions) ∨
    (containsStr (jsTrim l) summaryMarker = false ∧
      containsStr (jsTrim l) assumptionsMarker = false ∧
      containsStr (jsTrim l) scriptMarker = true ∧
      processLine st l = codeHeaderStep st .script) ∨
    (containsStr (jsTrim l) summaryMarker = false ∧
      containsStr (jsTrim l) assumptionsMarker = false ∧
      containsStr (jsTrim l) scriptMarker = false ∧
      containsStr (jsTrim l) testsMarker = true ∧
      processLine st l = codeHeaderStep st .tests) ∨
    (containsStr (jsTrim l) summaryMarker = false ∧
      containsStr (jsTrim l) assumptionsMarker = false ∧
      containsStr (jsTrim l) scriptMarker = false ∧
      containsStr (jsTrim l) testsMarker = false ∧
      containsStr (jsTrim l) dockerfileMarker = true ∧
      processLine st l = codeHeaderStep st .dockerfile) ∨
    (containsStr (jsTrim l) summaryMarker = false ∧
      containsStr (jsTrim l) assumptionsMarker = false ∧
      containsStr (jsTrim l) scriptMarker = false ∧
      containsStr (jsTrim l) testsMarker = false ∧
      containsStr (jsTrim l) dockerfileMarker = false ∧
      containsStr (jsTrim l) cicdMarker = true ∧
      processLine st l = codeHeaderStep st .cicd) ∨
    (containsStr (jsTrim l) summaryMarker = false ∧
      containsStr (jsTrim l) assumptionsMarker = false ∧
      containsStr (jsTrim l) scriptMarker = false ∧
      containsStr (jsTrim l) testsMarker = false ∧
      containsStr (jsTrim l) dockerfileMarker = false ∧
      containsStr (jsTrim l) cicdMarker = false ∧
      containsStr (jsTrim l) failuresMarker = true ∧
      processLine st l = setSection st .failures) ∨
    (containsStr (jsTrim l) summaryMarker = false ∧
      containsStr (jsTrim l) assumptionsMarker = false ∧
      containsStr (jsTrim l) scriptMarker = false ∧
      containsStr (jsTrim l) testsMarker = false ∧
      containsStr (jsTrim l) dockerfileMarker = false ∧
      containsStr (jsTrim l) cicdMarker = false ∧
      containsStr (jsTrim l) failuresMarker = false ∧
      containsStr (jsTrim l) metricsMarker = true ∧
      processLine st l = metricsLineStep st (jsTrim l)) ∨
    (containsStr (jsTrim l) summaryMarker = false ∧
      containsStr (jsTrim l) assumptionsMarker = false ∧
      containsStr (jsTrim l) scriptMarker = false ∧
      containsStr (jsTrim l) testsMarker = false ∧
      containsStr (jsTrim l) dockerfileMarker = false ∧
      containsStr (jsTrim l) cicdMarker = false ∧
      containsStr (jsTrim l) failuresMarker = false ∧
      containsStr (jsTrim l) metricsMarker = false ∧
      containsStr (jsTrim l) usageMarker = true ∧
      processLine st l = usageHeaderStep st (jsTrim l)) ∨
    (noneOf (jsTrim l) allMarkers ∧
      (st.currentSection = some .summary ∧ jsTrim l ≠ []) ∧
      processLine st l = summaryAccumStep st (jsTrim l)) ∨
    (noneOf (jsTrim l) allMarkers ∧
      ¬(st.currentSection = some .summary ∧ jsTrim l ≠ []) ∧
      (st.currentSection = some .assumptions ∧ ['-'].isPrefixOf (jsTrim l) = true) ∧
      processLine st l = assumptionsAccumStep st (jsTrim l)) ∨
    (noneOf (jsTrim l) allMarkers ∧
      ¬(st.currentSection = some .summary ∧ jsTrim l ≠ []) ∧
      ¬(st.currentSection = some .assumptions ∧ ['-'].isPrefixOf (jsTrim l) = true) ∧
      (st.currentSection = some .failures ∧ ['-'].isPrefixOf (jsTrim l) = true) ∧
      processLine st l = failuresAccumStep st (jsTrim l)) ∨
    (noneOf (jsTrim l) allMarkers ∧
      ¬(st.currentSection = some .summary ∧ jsTrim l ≠ []) ∧
      ¬(st.currentSection = some .assumptions ∧ ['-'].isPrefixOf (jsTrim l) = true) ∧
      ¬(st.currentSection = some .failures ∧ ['-'].isPrefixOf (jsTrim l) = true) ∧
      isCodeSection st.currentSection = true ∧
      processLine st l = codeLineStep st l (jsTrim l)) ∨
    (noneOf (jsTrim l) allMarkers ∧
      ¬(st.currentSection = some .summary ∧ jsTrim l ≠ []) ∧
      ¬(st.currentSection = some .assumptions ∧ ['-'].isPrefixOf (jsTrim l) = true) ∧
      ¬(st.currentSection = some .failures ∧ ['-'].isPrefixOf (jsTrim l) = true) ∧
      isCodeSection st.currentSection = false ∧
      (st.currentSection = some .usage ∧ jsTrim l ≠ [] ∧
        containsStr (jsTrim l) usageMarker = false) ∧
      processLine st l = usageAccumStep st (jsTrim l)) ∨
    (noneOf (jsTrim l) allMarkers ∧
      ¬(st.currentSection = some .summary ∧ jsTrim l ≠ []) ∧
      ¬(st.currentSection = some .assumptions ∧ ['-'].isPrefixOf (jsTrim l) = true) ∧
      ¬(st.currentSection = some .failures ∧ ['-'].isPrefixOf (jsTrim l) = true) ∧
      isCodeSection st.currentSection = false ∧
      ¬(st.currentSection = some .usage ∧ jsTrim l ≠ [] ∧
        containsStr (jsTrim l) usageMarker = false) ∧
      processLine st l = st) := by
  have bne : ∀ (b : Bool), ¬ b = true → b = false := by decide
  simp only [processLine]
  by_cases hb1 : containsStr (jsTrim l) summaryMarker = true
  · rw [if_pos hb1]; exact Or.inl ⟨hb1, rfl⟩
  · have h1 := bne _ hb1
    rw [if_neg hb1]
    by_cases hb2 : containsStr (jsTrim l) assumptionsMarker = true
    · rw [if_pos hb2]; exact Or.inr (Or.inl ⟨h1, hb2, rfl⟩)
    · have h2 := bne _ hb2
      rw [if_neg hb2]
      by_cases hb3 : containsStr (jsTrim l) scriptMarker = true
      · rw [if_pos hb3]; exact Or.inr (Or.inr (Or.inl ⟨h1, h2, hb3, rfl⟩))
      · have h3 := bne _ hb3
        rw [if_neg hb3]
        by_cases hb4 : containsStr (jsTrim l) testsMarker = true
        · rw [if_pos hb4]
          exact Or.inr (Or.inr (Or.inr (Or.inl ⟨h1, h2, h3, hb4, rfl⟩)))
        · have h4 := bne _ hb4
          rw [if_neg hb4]
          by_cases hb5 : containsStr (jsTrim l) dockerfileMarker = true
          · rw [if_pos hb5]
            exact Or.inr (Or.inr (Or.inr (Or.inr (Or.inl ⟨h1, h2, h3, h4, hb5, rfl⟩))))
          · have h5 := bne _ hb5
            rw [if_neg hb5]
            by_cases hb6 : containsStr (jsTrim l) cicdMarker = true
            · rw [if_pos hb6]
              exact Or.inr (Or.inr (Or.inr (Or.inr (Or.inr (Or.inl
                ⟨h1, h2, h3, h4, h5, hb6, rfl⟩)))))
            · have h6 := bne _ hb6
              rw [if_neg hb6]
              by_cases hb7 : containsStr (jsTrim l) failuresMarker = true
              · rw [if_pos hb7]
                exact Or.inr (Or.inr (Or.inr (Or.inr (Or.inr (Or.inr (Or.inl
                  ⟨h1, h2, h3, h4, h5, h6, hb7, rfl⟩))))))
              · have h7 := bne _ hb7
                rw [if_neg hb7]
                by_cases hb8 : containsStr (jsTrim l) metricsMarker = true
                · rw [if_pos hb8]
                  exact Or.inr (Or.inr (Or.inr (Or.inr (Or.inr (Or.inr (Or.inr (Or.inl
                    ⟨h1, h2, h3, h4, h5, h6, h7, hb8, rfl⟩)))))))
                · have h8 := bne _ hb8
                  rw [if_neg hb8]
                  by_cases hb9 : containsStr (jsTrim l) usageMarker = true
                  · rw [if_pos hb9]
                    exact Or.inr (Or.inr (Or.inr (Or.inr (Or.inr (Or.inr (Or.inr (Or.inr (Or.inl
                      ⟨h1, h2, h3, h4, h5, h6, h7, h8, hb9, rfl⟩))))))))
                  · have h9 := bne _ hb9
                    rw [if_neg hb9]
                    have hnone : noneOf (jsTrim l) allMarkers :=
                      noneOf_of_each h1 h2 h3 h4 h5 h6 h7 h8 h9
                    by_cases hp10 : st.currentSection = some SectionTag.summary ∧ jsTrim l ≠ []
                    · rw [if_pos hp10]
                      exact Or.inr (Or.inr (Or.inr (Or.inr (Or.inr (Or.inr (Or.inr (Or.inr (Or.inr
                        (Or.inl ⟨hnone, hp10, rfl⟩)))))))))
                    · rw [if_neg hp10]
                      by_cases hp11 : st.currentSection = some SectionTag.assumptions ∧
                          ['-'].isPrefixOf (jsTrim l) = true
                      · rw [if_pos hp11]
                        exact Or.inr (Or.inr (Or.inr (Or.inr (Or.inr (Or.inr (Or.inr (Or.inr
                          (Or.inr (Or.inr (Or.inl ⟨hnone, hp10, hp11, rfl⟩))))))))))
                      · rw [if_neg hp11]
                        by_cases hp12 : st.currentSection = some SectionTag.failures ∧
                            ['-'].isPrefixOf (jsTrim l) = true
                        · rw [if_pos hp12]
                          exact Or.inr (Or.inr (Or.inr (Or.inr (Or.inr (Or.inr (Or.inr (Or.inr
                            (Or.inr (Or.inr (Or.inr (Or.inl ⟨hnone, hp10, hp11, hp12, rfl⟩)))))))))))
                        · rw [if_neg hp12]
                          by_cases hb13 : isCodeSection st.currentSection = true
                          · rw [if_pos hb13]
                            exact Or.inr (Or.inr (Or.inr (Or.inr (Or.inr (Or.inr (Or.inr (Or.inr
                              (Or.inr (Or.inr (Or.inr (Or.inr (Or.inl
                              ⟨hnone, hp10, hp11, hp12, hb13, rfl⟩))))))))))))
                          · have h13 := bne _ hb13
                            rw [if_neg hb13]
                            by_cases hp14 : st.currentSection = some SectionTag.usage ∧
                                jsTrim l ≠ [] ∧ containsStr (jsTrim l) usageMarker = false
                            · rw [if_pos hp14]
                              exact Or.inr (Or.inr (Or.inr (Or.inr (Or.inr (Or.inr (Or.inr (Or.inr
                                (Or.inr (Or.inr (Or.inr (Or.inr (Or.inr (Or.inl
                                ⟨hnone, hp10, hp11, hp12, h13, hp14, rfl⟩)))))))))))))
                            · rw [if_neg hp14]
                              exact Or.inr (Or.inr (Or.inr (Or.inr (Or.inr (Or.inr (Or.inr (Or.inr
                                (Or.inr (Or.inr (Or.inr (Or.inr (Or.inr (Or.inr
                                ⟨hnone, hp10, hp11, hp12, h13, hp14, rfl⟩)))))))))))))

theorem foldl_processLine_inv {Inv : ParseState → Prop} :
    ∀ (ls : List Str) (st : ParseState),
      (∀ s l, l ∈ ls → Inv s → Inv (processLine s l)) → Inv st →
      Inv (ls.foldl processLine st)
  | [], _, _, h0 => h0
  | l :: ls, st, h, h0 =>
    foldl_processLine_inv ls (processLine st l)
      (fun s l' hl' => h s l' (List.mem_cons_of_mem _ hl'))
      (h st l (List.mem_cons_self _ _) h0)

theorem appendCodeLine_assumptions (s : ScriptResponse) (cs : Option SectionTag) (line : Str) :
    (appendCodeLine s cs line).assumptions = s.assumptions := by
  simp only [appendCodeLine]; split_ifs <;> rfl

theorem appendCodeLine_failureSimulations (s : ScriptResponse) (cs : Option SectionTag)
    (line : Str) :
    (appendCodeLine s cs line).failureSimulations = s.failureSimulations := by
  simp only [appendCodeLine]; split_ifs <;> rfl

theorem appendCodeLine_metrics (s : ScriptResponse) (cs : Option SectionTag) (line : Str) :
    (appendCodeLine s cs line).metrics = s.metrics := by
  simp only [appendCodeLine]; split_ifs <;> rfl

theorem appendCodeLine_usage (s : ScriptResponse) (cs : Option SectionTag) (line : Str) :
    (appendCodeLine s cs line).usage = s.usage := by
  simp only [appendCodeLine]; split_ifs <;> rfl

theorem appendCodeLine_summary (s : ScriptResponse) (cs : Option SectionTag) (line : Str) :
    (appendCodeLine s cs line).summary = s.summary := by
  simp only [appendCodeLine]; split_ifs <;> rfl

theorem appendCodeLine_script_of_ne {cs : Option SectionTag} (s : ScriptResponse) (line : Str)
    (h : cs ≠ some .script) : (appendCodeLine s cs line).script = s.script := by
  simp only [appendCodeLine]; split_ifs <;> simp_all

theorem appendCodeLine_tests_of_ne {cs : Option SectionTag} (s : ScriptResponse) (line : Str)
    (h : cs ≠ some .tests) : (appendCodeLine s cs line).tests = s.tests := by
  simp only [appendCodeLine]; split_ifs <;> simp_all

theorem appendCodeLine_dockerfile_of_ne {cs : Option SectionTag} (s : ScriptResponse) (line : Str)
    (h : cs ≠ some .dockerfile) : (appendCodeLine s cs line).dockerfile = s.dockerfile := by
  simp only [appendCodeLine]; split_ifs <;> simp_all

theorem appendCodeLine_cicd_of_ne {cs : Option SectionTag} (s : ScriptResponse) (line : Str)
    (h : cs ≠ some .cicd) : (appendCodeLine s cs line).cicd = s.cicd := by
  simp only [appendCodeLine]; split_ifs <;> simp_all

theorem appendCodeLine_script_of_eq (s : ScriptResponse) (line : Str) :
    (appendCodeLine s (some .script) line).script = s.script ++ line ++ ['\n'] := by
  simp only [appendCodeLine]; split_ifs <;> simp_all

theorem finalizeResponse_summary (s : ScriptResponse) :
    (finalizeResponse s).summary = s.summary := by
  simp only [finalizeResponse]; split_ifs <;> rfl

theorem finalizeResponse_assumptions (s : ScriptResponse) :
    (finalizeResponse s).assumptions = s.assumptions := by
  simp only [finalizeResponse]; split_ifs <;> rfl

theorem finalizeResponse_script (s : ScriptResponse) :
    (finalizeResponse s).script = jsTrim s.script := by
  simp only [finalizeResponse]; split_ifs <;> rfl

theorem finalizeResponse_tests (s : ScriptResponse) :
    (finalizeResponse s).tests = (if jsTrim s.tests = nASentinel then [] else jsTrim s.tests) := by
  simp only [finalizeResponse]
  split_ifs <;> rfl

theorem finalizeResponse_dockerfile (s : ScriptResponse) :
    (finalizeResponse s).dockerfile = jsTrim s.dockerfile := by
  simp only [finalizeResponse]; split_ifs <;> rfl

theorem finalizeResponse_cicd (s : ScriptResponse) :
    (finalizeResponse s).cicd = jsTrim s.cicd := by
  simp only [finalizeResponse]; split_ifs <;> rfl

theorem finalizeResponse_failureSimulations (s : ScriptResponse) :
    (finalizeResponse s).failureSimulations = s.failureSimulations := by
  simp only [finalizeResponse]; split_ifs <;> rfl

theorem finalizeResponse_metrics (s : ScriptResponse) :
    (finalizeResponse s).metrics = s.metrics := by
  simp only [finalizeResponse]; split_ifs <;> rfl

theorem finalizeResponse_usage (s : ScriptResponse) :
    (finalizeResponse s).usage = s.usage := by
  simp only [finalizeResponse]; split_ifs <;> rfl
theorem processLine_summary_inv {st : ParseState} {l : Str}
    (hm : containsStr (jsTrim l) summaryMarker = false)
    (h1 : st.currentSection ≠ some .summary) :
    (processLine st l).currentSection ≠ some .summary ∧
    (processLine st l).sections.summary = st.sections.summary := by
  rcases processLine_cases st l with
      ⟨hg, heq⟩ | ⟨_, hg, heq⟩ | ⟨_, _, hg, heq⟩ | ⟨_, _, _, hg, heq⟩ |
      ⟨_, _, _, _, hg, heq⟩ | ⟨_, _, _, _, _, hg, heq⟩ | ⟨_, _, _, _, _, _, hg, heq⟩ |
      ⟨_, _, _, _, _, _, _, hg, heq⟩ | ⟨_, _, _, _, _, _, _, _, hg, heq⟩ |
      ⟨hn, hg, heq⟩ | ⟨hn, _, hg, heq⟩ | ⟨hn, _, _, hg, heq⟩ |
      ⟨hn, _, _, _, hg, heq⟩ | ⟨hn, _, _, _, _, hg, heq⟩ | ⟨hn, _, _, _, _, _, heq⟩
  · rw [hm] at hg; exact Bool.noConfusion hg
  · rw [heq]; exact ⟨by simp [setSection], rfl⟩
  · rw [heq]; exact ⟨by simp [codeHeaderStep], rfl⟩
  · rw [heq]; exact ⟨by simp [codeHeaderStep], rfl⟩
  · rw [heq]; exact ⟨by simp [codeHeaderStep], rfl⟩
  · rw [heq]; exact ⟨by simp [codeHeaderStep], rfl⟩
  · rw [heq]; exact ⟨by simp [setSection], rfl⟩
  · rw [heq]; unfold metricsLineStep; split_ifs <;> exact ⟨h1, rfl⟩
  · rw [heq]; exact ⟨by simp [usageHeaderStep], rfl⟩
  · exact absurd hg.1 h1
  · rw [heq]; exact ⟨h1, rfl⟩
  · rw [heq]; unfold failuresAccumStep; split_ifs <;> exact ⟨h1, rfl⟩
  · rw [heq]; unfold codeLineStep; split_ifs
    · exact ⟨h1, rfl⟩
    · exact ⟨h1, appendCodeLine_summary _ _ _⟩
  · rw [heq]; exact ⟨h1, rfl⟩
  · rw [heq]; exact ⟨h1, rfl⟩

theorem processLine_assumptions_inv {st : ParseState} {l : Str}
    (hm : containsStr (jsTrim l) assumptionsMarker = false)
    (h1 : st.currentSection ≠ some .assumptions) :
    (processLine st l).currentSection ≠ some .assumptions ∧
    (processLine st l).sections.assumptions = st.sections.assumptions := by
  rcases processLine_cases st l with
      ⟨hg, heq⟩ | ⟨_, hg, heq⟩ | ⟨_, _, hg, heq⟩ | ⟨_, _, _, hg, heq⟩ |
      ⟨_, _, _, _, hg, heq⟩ | ⟨_, _, _, _, _, hg, heq⟩ | ⟨_, _, _, _, _, _, hg, heq⟩ |
      ⟨_, _, _, _, _, _, _, hg, heq⟩ | ⟨_, _, _, _, _, _, _, _, hg, heq⟩ |
      ⟨hn, hg, heq⟩ | ⟨hn, _, hg, heq⟩ | ⟨hn, _, _, hg, heq⟩ |
      ⟨hn, _, _, _, hg, heq⟩ | ⟨hn, _, _, _, _, hg, heq⟩ | ⟨hn, _, _, _, _, _, heq⟩
  · rw [heq]; exact ⟨by simp [summaryHeaderStep], rfl⟩
  · rw [hm] at hg; exact Bool.noConfusion hg
  · rw [heq]; exact ⟨by simp [codeHeaderStep], rfl⟩
  · rw [heq]; exact ⟨by simp [codeHeaderStep], rfl⟩
  · rw [heq]; exact ⟨by simp [codeHeaderStep], rfl⟩
  · rw [heq]; exact ⟨by simp [codeHeaderStep], rfl⟩
  · rw [heq]; exact ⟨by simp [setSection], rfl⟩
  · rw [heq]; unfold metricsLineStep; split_ifs <;> exact ⟨h1, rfl⟩
  · rw [heq]; exact ⟨by simp [usageHeaderStep], rfl⟩
  · rw [heq]; unfold summaryAccumStep; split_ifs <;> exact ⟨h1, rfl⟩
  · exact absurd hg.1 h1
  · rw [heq]; unfold failuresAccumStep; split_ifs <;> exact ⟨h1, rfl⟩
  · rw [heq]; unfold codeLineStep; split_ifs
    · exact ⟨h1, rfl⟩
    · exact ⟨h1, appendCodeLine_assumptions _ _ _⟩
  · rw [heq]; exact ⟨h1, rfl⟩
  · rw [heq]; exact ⟨h1, rfl⟩

theorem processLine_script_inv {st : ParseState} {l : Str}
    (hm : containsStr (jsTrim l) scriptMarker = false)
    (h1 : st.currentSection ≠ some .script) :
    (processLine st l).currentSection ≠ some .script ∧
    (processLine st l).sections.script = st.sections.script := by
  rcases processLine_cases st l with
      ⟨hg, heq⟩ | ⟨_, hg, heq⟩ | ⟨_, _, hg, heq⟩ | ⟨_, _, _, hg, heq⟩ |
      ⟨_, _, _, _, hg, heq⟩ | ⟨_, _, _, _, _, hg, heq⟩ | ⟨_, _, _, _, _, _, hg, heq⟩ |
      ⟨_, _, _, _, _, _, _, hg, heq⟩ | ⟨_, _, _, _, _, _, _, _, hg, heq⟩ |
      ⟨hn, hg, heq⟩ | ⟨hn, _, hg, heq⟩ | ⟨hn, _, _, hg, heq⟩ |
      ⟨hn, _, _, _, hg, heq⟩ | ⟨hn, _, _, _, _, hg, heq⟩ | ⟨hn, _, _, _, _, _, heq⟩
  · rw [heq]; exact ⟨by simp [summaryHeaderStep], rfl⟩
  · rw [heq]; exact ⟨by simp [setSection], rfl⟩
  · rw [hm] at hg; exact Bool.noConfusion hg
  · rw [heq]; exact ⟨by simp [codeHeaderStep], rfl⟩
  · rw [heq]; exact ⟨by simp [codeHeaderStep], rfl⟩
  · rw [heq]; exact ⟨by simp [codeHeaderStep], rfl⟩
  · rw [heq]; exact ⟨by simp [setSection], rfl⟩
  · rw [heq]; unfold metricsLineStep; split_ifs <;> exact ⟨h1, rfl⟩
  · rw [heq]; exact ⟨by simp [usageHeaderStep], rfl⟩
  · rw [heq]; unfold summaryAccumStep; split_ifs <;> exact ⟨h1, rfl⟩
  · rw [heq]; exact ⟨h1, rfl⟩
  · rw [heq]; unfold failuresAccumStep; split_ifs <;> exact ⟨h1, rfl⟩
  · rw [heq]; unfold codeLineStep; split_ifs
    · exact ⟨h1, rfl⟩
    · exact ⟨h1, appendCodeLine_script_of_ne _ _ h1⟩
  · rw [heq]; exact ⟨h1, rfl⟩
  · rw [heq]; exact ⟨h1, rfl⟩

theorem processLine_tests_inv {st : ParseState} {l : Str}
    (hm : containsStr (jsTrim l) testsMarker = false)
    (h1 : st.currentSection ≠ some .tests) :
    (processLine st l).currentSection ≠ some .tests ∧
    (processLine st l).sections.tests = st.sections.tests := by
  rcases processLine_cases st l with
      ⟨hg, heq⟩ | ⟨_, hg, heq⟩ | ⟨_, _, hg, heq⟩ | ⟨_, _, _, hg, heq⟩ |
      ⟨_, _, _, _, hg, heq⟩ | ⟨_, _, _, _, _, hg, heq⟩ | ⟨_, _, _, _, _, _, hg, heq⟩ |
      ⟨_, _, _, _, _, _, _, hg, heq⟩ | ⟨_, _, _, _, _, _, _, _, hg, heq⟩ |
      ⟨hn, hg, heq⟩ | ⟨hn, _, hg, heq⟩ | ⟨hn, _, _, hg, heq⟩ |
      ⟨hn, _, _, _, hg, heq⟩ | ⟨hn, _, _, _, _, hg, heq⟩ | ⟨hn, _, _, _, _, _, heq⟩
  · rw [heq]; exact ⟨by simp [summaryHeaderStep], rfl⟩
  · rw [heq]; exact ⟨by simp [setSection], rfl⟩
  · rw [heq]; exact ⟨by simp [codeHeaderStep], rfl⟩
  · rw [hm] at hg; exact Bool.noConfusion hg
  · rw [heq]; exact ⟨by simp [codeHeaderStep], rfl⟩
  · rw [heq]; exact ⟨by simp [codeHeaderStep], rfl⟩
  · rw [heq]; exact ⟨by simp [setSection], rfl⟩
  · rw [heq]; unfold metricsLineStep; split_ifs <;> exact ⟨h1, rfl⟩
  · rw [heq]; exact ⟨by simp [usageHeaderStep], rfl⟩
  · rw [heq]; unfold summaryAccumStep; split_ifs <;> exact ⟨h1, rfl⟩
  · rw [heq]; exact ⟨h1, rfl⟩
  · rw [heq]; unfold failuresAccumStep; split_ifs <;> exact ⟨h1, rfl⟩
  · rw [heq]; unfold codeLineStep; split_ifs
    · exact ⟨h1, rfl⟩
    · exact ⟨h1, appendCodeLine_tests_of_ne _ _ h1⟩
  · rw [heq]; exact ⟨h1, rfl⟩
  · rw [heq]; exact ⟨h1, rfl⟩

theorem processLine_dockerfile_inv {st : ParseState} {l : Str}
    (hm : containsStr (jsTrim l) dockerfileMarker = false)
    (h1 : st.currentSection ≠ some .dockerfile) :
    (processLine st l).currentSection ≠ some .dockerfile ∧
    (processLine st l).sections.dockerfile = st.sections.dockerfile := by
  rcases processLine_cases st l with
      ⟨hg, heq⟩ | ⟨_, hg, heq⟩ | ⟨_, _, hg, heq⟩ | ⟨_, _, _, hg, heq⟩ |
      ⟨_, _, _, _, hg, heq⟩ | ⟨_, _, _, _, _, hg, heq⟩ | ⟨_, _, _, _, _, _, hg, heq⟩ |
      ⟨_, _, _, _, _, _, _, hg, heq⟩ | ⟨_, _, _, _, _, _, _, _, hg, heq⟩ |
      ⟨hn, hg, heq⟩ | ⟨hn, _, hg, heq⟩ | ⟨hn, _, _, hg, heq⟩ |
      ⟨hn, _, _, _, hg, heq⟩ | ⟨hn, _, _, _, _, hg, heq⟩ | ⟨hn, _, _, _, _, _, heq⟩
  · rw [heq]; exact ⟨by simp [summaryHeaderStep], rfl⟩
  · rw [heq]; exact ⟨by simp [setSection], rfl⟩
  · rw [heq]; exact ⟨by simp [codeHeaderStep], rfl⟩
  · rw [heq]; exact ⟨by simp [codeHeaderStep], rfl⟩
  · rw [hm] at hg; exact Bool.noConfusion hg
  · rw [heq]; exact ⟨by simp [codeHeaderStep], rfl⟩
  · rw [heq]; exact ⟨by simp [setSection], rfl⟩
  · rw [heq]; unfold metricsLineStep; split_ifs <;> exact ⟨h1, rfl⟩
  · rw [heq]; exact ⟨by simp [usageHeaderStep], rfl⟩
  · rw [heq]; unfold summaryAccumStep; split_ifs <;> exact ⟨h1, rfl⟩
  · rw [heq]; exact ⟨h1, rfl⟩
  · rw [heq]; unfold failuresAccumStep; split_ifs <;> exact ⟨h1, rfl⟩
  · rw [heq]; unfold codeLineStep; split_ifs
    · exact ⟨h1, rfl⟩
    · exact ⟨h1, appendCodeLine_dockerfile_of_ne _ _ h1⟩
  · rw [heq]; exact ⟨h1, rfl⟩
  · rw [heq]; exact ⟨h1, rfl⟩

theorem processLine_cicd_inv {st : ParseState} {l : Str}
    (hm : containsStr (jsTrim l) cicdMarker = false)
    (h1 : st.currentSection ≠ some .cicd) :
    (processLine st l).currentSection ≠ some .cicd ∧
    (processLine st l).sections.cicd = st.sections.cicd := by
  rcases processLine_cases st l with
      ⟨hg, heq⟩ | ⟨_, hg, heq⟩ | ⟨_, _, hg, heq⟩ | ⟨_, _, _, hg, heq⟩ |
      ⟨_, _, _, _, hg, heq⟩ | ⟨_, _, _, _, _, hg, heq⟩ | ⟨_, _, _, _, _, _, hg, heq⟩ |
      ⟨_, _, _, _, _, _, _, hg, heq⟩ | ⟨_, _, _, _, _, _, _, _, hg, heq⟩ |
      ⟨hn, hg, heq⟩ | ⟨hn, _, hg, heq⟩ | ⟨hn, _, _, hg, heq⟩ |
      ⟨hn, _, _, _, hg, heq⟩ | ⟨hn, _, _, _, _, hg, heq⟩ | ⟨hn, _, _, _, _, _, heq⟩
  · rw [heq]; exact ⟨by simp [summaryHeaderStep], rfl⟩
  · rw [heq]; exact ⟨by simp [setSection], rfl⟩
  · rw [heq]; exact ⟨by simp [codeHeaderStep], rfl⟩
  · rw [heq]; exact ⟨by simp [codeHeaderStep], rfl⟩
  · rw [heq]; exact ⟨by simp [codeHeaderStep], rfl⟩
  · rw [hm] at hg; exact Bool.noConfusion hg
  · rw [heq]; exact ⟨by simp [setSection], rfl⟩
  · rw [heq]; unfold metricsLineStep; split_ifs <;> exact ⟨h1, rfl⟩
  · rw [heq]; exact ⟨by simp [usageHeaderStep], rfl⟩
  · rw [heq]; unfold summaryAccumStep; split_ifs <;> exact ⟨h1, rfl⟩
  · rw [heq]; exact ⟨h1, rfl⟩
  · rw [heq]; unfold failuresAccumStep; split_ifs <;> exact ⟨h1, rfl⟩
  · rw [heq]; unfold codeLineStep; split_ifs
    · exact ⟨h1, rfl⟩
    · exact ⟨h1, appendCodeLine_cicd_of_ne _ _ h1⟩
  · rw [heq]; exact ⟨h1, rfl⟩
  · rw [heq]; exact ⟨h1, rfl⟩

theorem processLine_failures_inv {st : ParseState} {l : Str}
    (hm : containsStr (jsTrim l) failuresMarker = false)
    (h1 : st.currentSection ≠ some .failures) :
    (processLine st l).currentSection ≠ some .failures ∧
    (processLine st l).sections.failureSimulations = st.sections.failureSimulations := by
  rcases processLine_cases st l with
      ⟨hg, heq⟩ | ⟨_, hg, heq⟩ | ⟨_, _, hg, heq⟩ | ⟨_, _, _, hg, heq⟩ |
      ⟨_, _, _, _, hg, heq⟩ | ⟨_, _, _, _, _, hg, heq⟩ | ⟨_, _, _, _, _, _, hg, heq⟩ |
      ⟨_, _, _, _, _, _, _, hg, heq⟩ | ⟨_, _, _, _, _, _, _, _, hg, heq⟩ |
      ⟨hn, hg, heq⟩ | ⟨hn, _, hg, heq⟩ | ⟨hn, _, _, hg, heq⟩ |
      ⟨hn, _, _, _, hg, heq⟩ | ⟨hn, _, _, _, _, hg, heq⟩ | ⟨hn, _, _, _, _, _, heq⟩
  · rw [heq]; exact ⟨by simp [summaryHeaderStep], rfl⟩
  · rw [heq]; exact ⟨by simp [setSection], rfl⟩
  · rw [heq]; exact ⟨by simp [codeHeaderStep], rfl⟩
  · rw [heq]; exact ⟨by simp [codeHeaderStep], rfl⟩
  · rw [heq]; exact ⟨by simp [codeHeaderStep], rfl⟩
  · rw [heq]; exact ⟨by simp [codeHeaderStep], rfl⟩
  · rw [hm] at hg; exact Bool.noConfusion hg
  · rw [heq]; unfold metricsLineStep; split_ifs <;> exact ⟨h1, rfl⟩
  · rw [heq]; exact ⟨by simp [usageHeaderStep], rfl⟩
  · rw [heq]; unfold summaryAccumStep; split_ifs <;> exact ⟨h1, rfl⟩
  · rw [heq]; exact ⟨h1, rfl⟩
  · exact absurd hg.1 h1
  · rw [heq]; unfold codeLineStep; split_ifs
    · exact ⟨h1, rfl⟩
    · exact ⟨h1, appendCodeLine_failureSimulations _ _ _⟩
  · rw [heq]; exact ⟨h1, rfl⟩
  · rw [heq]; exact ⟨h1, rfl⟩

theorem processLine_usage_inv {st : ParseState} {l : Str}
    (hm : containsStr (jsTrim l) usageMarker = false)
    (h1 : st.currentSection ≠ some .usage) :
    (processLine st l).currentSection ≠ some .usage ∧
    (processLine st l).sections.usage = st.sections.usage := by
  rcases processLine_cases st l with
      ⟨hg, heq⟩ | ⟨_, hg, heq⟩ | ⟨_, _, hg, heq⟩ | ⟨_, _, _, hg, heq⟩ |
      ⟨_, _, _, _, hg, heq⟩ | ⟨_, _, _, _, _, hg, heq⟩ | ⟨_, _, _, _, _, _, hg, heq⟩ |
      ⟨_, _, _, _, _, _, _, hg, heq⟩ | ⟨_, _, _, _, _, _, _, _, hg, heq⟩ |
      ⟨hn, hg, heq⟩ | ⟨hn, _, hg, heq⟩ | ⟨hn, _, _, hg, heq⟩ |
      ⟨hn, _, _, _, hg, heq⟩ | ⟨hn, _, _, _, _, hg, heq⟩ | ⟨hn, _, _, _, _, _, heq⟩
  · rw [heq]; exact ⟨by simp [summaryHeaderStep], rfl⟩
  · rw [heq]; exact ⟨by simp [setSection], rfl⟩
  · rw [heq]; exact ⟨by simp [codeHeaderStep], rfl⟩
  · rw [heq]; exact ⟨by simp [codeHeaderStep], rfl⟩
  · rw [heq]; exact ⟨by simp [codeHeaderStep], rfl⟩
  · rw [heq]; exact ⟨by simp [codeHeaderStep], rfl⟩
  · rw [heq]; exact ⟨by simp [setSection], rfl⟩
  · rw [heq]; unfold metricsLineStep; split_ifs <;> exact ⟨h1, rfl⟩
  · rw [hm] at hg; exact Bool.noConfusion hg
  · rw [heq]; unfold summaryAccumStep; split_ifs <;> exact ⟨h1, rfl⟩
  · rw [heq]; exact ⟨h1, rfl⟩
  · rw [heq]; unfold failuresAccumStep; split_ifs <;> exact ⟨h1, rfl⟩
  · rw [heq]; unfold codeLineStep; split_ifs
    · exact ⟨h1, rfl⟩
    · exact ⟨h1, appendCodeLine_usage _ _ _⟩
  · exact absurd hg.1 h1
  · rw [heq]; exact ⟨h1, rfl⟩

theorem processLine_metrics_preserve {st : ParseState} {l : Str}
    (hshort : containsStr (jsTrim l) metricsMarker = true →
      ((splitOnChar '|' (jsTrim l)).map jsTrim).length < 4) :
    (processLine st l).sections.metrics = st.sections.metrics := by
  rcases processLine_cases st l with
      ⟨hg, heq⟩ | ⟨_, hg, heq⟩ | ⟨_, _, hg, heq⟩ | ⟨_, _, _, hg, heq⟩ |
      ⟨_, _, _, _, hg, heq⟩ | ⟨_, _, _, _, _, hg, heq⟩ | ⟨_, _, _, _, _, _, hg, heq⟩ |
      ⟨_, _, _, _, _, _, _, hg, heq⟩ | ⟨_, _, _, _, _, _, _, _, hg, heq⟩ |
      ⟨hn, hg, heq⟩ | ⟨hn, _, hg, heq⟩ | ⟨hn, _, _, hg, heq⟩ |
      ⟨hn, _, _, _, hg, heq⟩ | ⟨hn, _, _, _, _, hg, heq⟩ | ⟨hn, _, _, _, _, _, heq⟩
  · rw [heq]; rfl
  · rw [heq]; rfl
  · rw [heq]; rfl
  · rw [heq]; rfl
  · rw [heq]; rfl
  · rw [heq]; rfl
  · rw [heq]; rfl
  · rw [heq]; unfold metricsLineStep
    rw [if_neg (not_le.mpr (hshort hg))]
  · rw [heq]; rfl
  · rw [heq]; unfold summaryAccumStep; split_ifs <;> rfl
  · rw [heq]; rfl
  · rw [heq]; unfold failuresAccumStep; split_ifs <;> rfl
  · rw [heq]; unfold codeLineStep; split_ifs
    · rfl
    · exact appendCodeLine_metrics _ _ _
  · rw [heq]; rfl
  · rw [heq]
theorem parseFold_summary_default {text : Str}
    (hm : ∀ l ∈ splitOnChar '\n' text, containsStr (jsTrim l) summaryMarker = false) :
    (parseFold text).currentSection ≠ some .summary ∧
    (parseFold text).sections.summary = [] := by
  refine @foldl_processLine_inv
    (fun st => st.currentSection ≠ some .summary ∧ st.sections.summary = [])
    (splitOnChar '\n' text) initState ?_ ?_
  · intro s l hl hInv
    obtain ⟨hcs, hf⟩ := hInv
    obtain ⟨hcs', hf'⟩ := processLine_summary_inv (hm l hl) hcs
    exact ⟨hcs', by rw [hf']; exact hf⟩
  · exact ⟨by simp [initState], rfl⟩

theorem parseFold_assumptions_default {text : Str}
    (hm : ∀ l ∈ splitOnChar '\n' text, containsStr (jsTrim l) assumptionsMarker = false) :
    (parseFold text).currentSection ≠ some .assumptions ∧
    (parseFold text).sections.assumptions = [] := by
  refine @foldl_processLine_inv
    (fun st => st.currentSection ≠ some .assumptions ∧ st.sections.assumptions = [])
    (splitOnChar '\n' text) initState ?_ ?_
  · intro s l hl hInv
    obtain ⟨hcs, hf⟩ := hInv
    obtain ⟨hcs', hf'⟩ := processLine_assumptions_inv (hm l hl) hcs
    exact ⟨hcs', by rw [hf']; exact hf⟩
  · exact ⟨by simp [initState], rfl⟩

theorem parseFold_script_default {text : Str}
    (hm : ∀ l ∈ splitOnChar '\n' text, containsStr (jsTrim l) scriptMarker = false) :
    (parseFold text).currentSection ≠ some .script ∧
    (parseFold text).sections.script = [] := by
  refine @foldl_processLine_inv
    (fun st => st.currentSection ≠ some .script ∧ st.sections.script = [])
    (splitOnChar '\n' text) initState ?_ ?_
  · intro s l hl hInv
    obtain ⟨hcs, hf⟩ := hInv
    obtain ⟨hcs', hf'⟩ := processLine_script_inv (hm l hl) hcs
    exact ⟨hcs', by rw [hf']; exact hf⟩
  · exact ⟨by simp [initState], rfl⟩

theorem parseFold_tests_default {text : Str}
    (hm : ∀ l ∈ splitOnChar '\n' text, containsStr (jsTrim l) testsMarker = false) :
    (parseFold text).currentSection ≠ some .tests ∧
    (parseFold text).sections.tests = [] := by
  refine @foldl_processLine_inv
    (fun st => st.currentSection ≠ some .tests ∧ st.sections.tests = [])
    (splitOnChar '\n' text) initState ?_ ?_
  · intro s l hl hInv
    obtain ⟨hcs, hf⟩ := hInv
    obtain ⟨hcs', hf'⟩ := processLine_tests_inv (hm l hl) hcs
    exact ⟨hcs', by rw [hf']; exact hf⟩
  · exact ⟨by simp [initState], rfl⟩

theorem parseFold_dockerfile_default {text : Str}
    (hm : ∀ l ∈ splitOnChar '\n' text, containsStr (jsTrim l) dockerfileMarker = false) :
    (parseFold text).currentSection ≠ some .dockerfile ∧
    (parseFold text).sections.dockerfile = [] := by
  refine @foldl_processLine_inv
    (fun st => st.currentSection ≠ some .dockerfile ∧ st.sections.dockerfile = [])
    (splitOnChar '\n' text) initState ?_ ?_
  · intro s l hl hInv
    obtain ⟨hcs, hf⟩ := hInv
    obtain ⟨hcs', hf'⟩ := processLine_dockerfile_inv (hm l hl) hcs
    exact ⟨hcs', by rw [hf']; exact hf⟩
  · exact ⟨by simp [initState], rfl⟩

theorem parseFold_cicd_default {text : Str}
    (hm : ∀ l ∈ splitOnChar '\n' text, containsStr (jsTrim l) cicdMarker = false) :
    (parseFold text).currentSection ≠ some .cicd ∧
    (parseFold text).sections.cicd = [] := by
  refine @foldl_processLine_inv
    (fun st => st.currentSection ≠ some .cicd ∧ st.sections.cicd = [])
    (splitOnChar '\n' text) initState ?_ ?_
  · intro s l hl hInv
    obtain ⟨hcs, hf⟩ := hInv
    obtain ⟨hcs', hf'⟩ := processLine_cicd_inv (hm l hl) hcs
    exact ⟨hcs', by rw [hf']; exact hf⟩
  · exact ⟨by simp [initState], rfl⟩

theorem parseFold_failures_default {text : Str}
    (hm : ∀ l ∈ splitOnChar '\n' text, containsStr (jsTrim l) failuresMarker = false) :
    (parseFold text).currentSection ≠ some .failures ∧
    (parseFold text).sections.failureSimulations = [] := by
  refine @foldl_processLine_inv
    (fun st => st.currentSection ≠ some .failures ∧ st.sections.failureSimulations = [])
    (splitOnChar '\n' text) initState ?_ ?_
  · intro s l hl hInv
    obtain ⟨hcs, hf⟩ := hInv
    obtain ⟨hcs', hf'⟩ := processLine_failures_inv (hm l hl) hcs
    exact ⟨hcs', by rw [hf']; exact hf⟩
  · exact ⟨by simp [initState], rfl⟩

theorem parseFold_usage_default {text : Str}
    (hm : ∀ l ∈ splitOnChar '\n' text, containsStr (jsTrim l) usageMarker = false) :
    (parseFold text).currentSection ≠ some .usage ∧
    (parseFold text).sections.usage = [] := by
  refine @foldl_processLine_inv
    (fun st => st.currentSection ≠ some .usage ∧ st.sections.usage = [])
    (splitOnChar '\n' text) initState ?_ ?_
  · intro s l hl hInv
    obtain ⟨hcs, hf⟩ := hInv
    obtain ⟨hcs', hf'⟩ := processLine_usage_inv (hm l hl) hcs
    exact ⟨hcs', by rw [hf']; exact hf⟩
  · exact ⟨by simp [initState], rfl⟩

theorem parseFold_metrics_default {text : Str}
    (hm : ∀ l ∈ splitOnChar '\n' text, containsStr (jsTrim l) metricsMarker = true →
      ((splitOnChar '|' (jsTrim l)).map jsTrim).length < 4) :
    (parseFold text).sections.metrics =
      { timeSavedMinutes := 0, linesProduced := 0, potentialErrorsMitigated := 0 } := by
  refine @foldl_processLine_inv
    (fun st => st.sections.metrics =
      { timeSavedMinutes := 0, linesProduced := 0, potentialErrorsMitigated := 0 })
    (splitOnChar '\n' text) initState ?_ rfl
  intro s l hl hInv
  rw [processLine_metrics_preserve (hm l hl)]
  exact hInv

/-- C2: `parseModelResponse` is a total function (it is a Lean `def`, defined
for every input string), and unmatched sections are left at their
empty-string/empty-list/zero-metric initial values: for every input text,
each section whose marker occurs in no line keeps its initial value in the
returned `ScriptResponse`. -/
theorem parseModelResponse_total_missing_sections_default (text : Str) :
    ((∀ l ∈ splitOnChar '\n' text, containsStr (jsTrim l) summaryMarker = false) →
      (parseModelResponse text).summary = []) ∧
    ((∀ l ∈ splitOnChar '\n' text, containsStr (jsTrim l) assumptionsMarker = false) →
      (parseModelResponse text).assumptions = []) ∧
    ((∀ l ∈ splitOnChar '\n' text, containsStr (jsTrim l) scriptMarker = false) →
      (parseModelResponse text).script = []) ∧
    ((∀ l ∈ splitOnChar '\n' text, containsStr (jsTrim l) testsMarker = false) →
      (parseModelResponse text).tests = []) ∧
    ((∀ l ∈ splitOnChar '\n' text, containsStr (jsTrim l) dockerfileMarker = false) →
      (parseModelResponse text).dockerfile = []) ∧
    ((∀ l ∈ splitOnChar '\n' text, containsStr (jsTrim l) cicdMarker = false) →
      (parseModelResponse text).cicd = []) ∧
    ((∀ l ∈ splitOnChar '\n' text, containsStr (jsTrim l) failuresMarker = false) →
      (parseModelResponse text).failureSimulations = []) ∧
    ((∀ l ∈ splitOnChar '\n' text, containsStr (jsTrim l) metricsMarker = false) →
      (parseModelResponse text).metrics =
        { timeSavedMinutes := 0, linesProduced := 0, potentialErrorsMitigated := 0 }) ∧
    ((∀ l ∈ splitOnChar '\n' text, containsStr (jsTrim l) usageMarker = false) →
      (parseModelResponse text).usage = []) := by
  refine ⟨?_, ?_, ?_, ?_, ?_, ?_, ?_, ?_, ?_⟩
  · intro hm
    show (finalizeResponse (parseFold text).sections).summary = []
    rw [finalizeResponse_summary, (parseFold_summary_default hm).2]
  · intro hm
    show (finalizeResponse (parseFold text).sections).assumptions = []
    rw [finalizeResponse_assumptions, (parseFold_assumptions_default hm).2]
  · intro hm
    show (finalizeResponse (parseFold text).sections).script = []
    rw [finalizeResponse_script, (parseFold_script_default hm).2]
    rfl
  · intro hm
    show (finalizeResponse (parseFold text).sections).tests = []
    rw [finalizeResponse_tests, (parseFold_tests_default hm).2]
    decide
  · intro hm
    show (finalizeResponse (parseFold text).sections).dockerfile = []
    rw [finalizeResponse_dockerfile, (parseFold_dockerfile_default hm).2]
    rfl
  · intro hm
    show (finalizeResponse (parseFold text).sections).cicd = []
    rw [finalizeResponse_cicd, (parseFold_cicd_default hm).2]
    rfl
  · intro hm
    show (finalizeResponse (parseFold text).sections).failureSimulations = []
    rw [finalizeResponse_failureSimulations, (parseFold_failures_default hm).2]
  · intro hm
    show (finalizeResponse (parseFold text).sections).metrics = _
    rw [finalizeResponse_metrics]
    exact parseFold_metrics_default (fun l hl hgm => absurd hgm (by rw [hm l hl]; decide))
  · intro hm
    show (finalizeResponse (parseFold text).sections).usage = []
    rw [finalizeResponse_usage, (parseFold_usage_default hm).2]

/-- Witness for C2 at a concrete marker-free input. -/
theorem parseModelResponse_total_missing_sections_default_witness :
    (parseModelResponse "hello engineering\nworld".data).summary = [] ∧
    (parseModelResponse "hello engineering\nworld".data).assumptions = [] ∧
    (parseModelResponse "hello engineering\nworld".data).script = [] ∧
    (parseModelResponse "hello engineering\nworld".data).tests = [] ∧
    (parseModelResponse "hello engineering\nworld".data).dockerfile = [] ∧
    (parseModelResponse "hello engineering\nworld".data).cicd = [] ∧
    (parseModelResponse "hello engineering\nworld".data).failureSimulations = [] ∧
    (parseModelResponse "hello engineering\nworld".data).metrics =
      { timeSavedMinutes := 0, linesProduced := 0, potentialErrorsMitigated := 0 } ∧
    (parseModelResponse "hello engineering\nworld".data).usage = [] := by
  have h := parseModelResponse_total_missing_sections_default "hello engineering\nworld".data
  exact ⟨h.1 (by decide), h.2.1 (by decide), h.2.2.1 (by decide), h.2.2.2.1 (by decide),
    h.2.2.2.2.1 (by decide), h.2.2.2.2.2.1 (by decide), h.2.2.2.2.2.2.1 (by decide),
    h.2.2.2.2.2.2.2.1 (by decide), h.2.2.2.2.2.2.2.2 (by decide)⟩

/-- C5: if no line containing the metrics marker splits into at least 4
pipe-delimited parts (in particular if the marker never occurs), the
returned metrics record is the initial zero record. -/
theorem parseModelResponse_metrics_zero_of_short_lines (text : Str)
    (hm : ∀ l ∈ splitOnChar '\n' text, containsStr (jsTrim l) metricsMarker = true →
      ((splitOnChar '|' (jsTrim l)).map jsTrim).length < 4) :
    (parseModelResponse text).metrics =
      { timeSavedMinutes := 0, linesProduced := 0, potentialErrorsMitigated := 0 } := by
  show (finalizeResponse (parseFold text).sections).metrics = _
  rw [finalizeResponse_metrics]
  exact parseFold_metrics_default hm

/-- Witness for C5: a metrics line with only 3 pipe-delimited parts leaves
the zero metrics record. -/
theorem parseModelResponse_metrics_zero_of_short_lines_witness :
    (parseModelResponse "📊 Metrics | 55 | 120".data).metrics =
      { timeSavedMinutes := 0, linesProduced := 0, potentialErrorsMitigated := 0 } :=
  parseModelResponse_metrics_zero_of_short_lines "📊 Metrics | 55 | 120".data (by decide)

/-- C8: for every input, a tests buffer that trims to the literal `N/A`
sentinel yields an empty `tests` field, and otherwise the `tests` field is
the trimmed buffer; illustrated on two concrete inputs. -/
theorem tests_na_sentinel_blanked (text : Str) :
    (parseModelResponse text).tests =
      (if jsTrim (parseFold text).sections.tests = nASentinel then []
       else jsTrim (parseFold text).sections.tests) ∧
    (parseModelResponse "🧪 Tests:\nN/A".data).tests = [] ∧
    (parseModelResponse "🧪 Tests:\nassert f(2) == 4".data).tests =
      "assert f(2) == 4".data := by
  refine ⟨?_, by decide, by decide⟩
  show (finalizeResponse (parseFold text).sections).tests = _
  rw [finalizeResponse_tests]

/-- C1 (code bug in `generateScript`): the empty-response error thrown at
line 78 is raised inside the `try` block, so the `catch` at line 81
replaces it with the same generic verification-fault error used for
transport faults — the caller receives the identical error for a
successful-but-empty call and for a failed call, so the two terminal
conditions are NOT distinguishable, contrary to the spec; a non-faulting
call with non-empty text is the only path that returns a result. -/
theorem generateScript_empty_indistinguishable_from_fault :
    generateScript (ApiOutcome.success (some [])) = Except.error verificationFaultMsg ∧
    generateScript (ApiOutcome.success none) = Except.error verificationFaultMsg ∧
    generateScript (ApiOutcome.apiError "network timeout".data) =
      Except.error verificationFaultMsg ∧
    emptyResponseMsg ≠ verificationFaultMsg ∧
    generateScript (ApiOutcome.success (some "📜 Script:\nx = 1".data)) =
      Except.ok (parseModelResponse "📜 Script:\nx = 1".data) :=
  ⟨rfl, rfl, rfl, by decide, rfl⟩

theorem processLine_metrics_branch (st : ParseState) (l : Str)
    (hg : containsStr (jsTrim l) metricsMarker = true)
    (h1 : containsStr (jsTrim l) summaryMarker = false)
    (h2 : containsStr (jsTrim l) assumptionsMarker = false)
    (h3 : containsStr (jsTrim l) scriptMarker = false)
    (h4 : containsStr (jsTrim l) testsMarker = false)
    (h5 : containsStr (jsTrim l) dockerfileMarker = false)
    (h6 : containsStr (jsTrim l) cicdMarker = false)
    (h7 : containsStr (jsTrim l) failuresMarker = false) :
    processLine st l = metricsLineStep st (jsTrim l) := by
  rcases processLine_cases st l with
      ⟨hga, heq⟩ | ⟨_, hga, heq⟩ | ⟨_, _, hga, heq⟩ | ⟨_, _, _, hga, heq⟩ |
      ⟨_, _, _, _, hga, heq⟩ | ⟨_, _, _, _, _, hga, heq⟩ | ⟨_, _, _, _, _, _, hga, heq⟩ |
      ⟨_, _, _, _, _, _, _, hga, heq⟩ | ⟨_, _, _, _, _, _, _, hgm, hga, heq⟩ |
      ⟨hn, hga, heq⟩ | ⟨hn, _, hga, heq⟩ | ⟨hn, _, _, hga, heq⟩ |
      ⟨hn, _, _, _, hga, heq⟩ | ⟨hn, _, _, _, _, hga, heq⟩ | ⟨hn, _, _, _, _, _, heq⟩
  · rw [h1] at hga; exact Bool.noConfusion hga
  · rw [h2] at hga; exact Bool.noConfusion hga
  · rw [h3] at hga; exact Bool.noConfusion hga
  · rw [h4] at hga; exact Bool.noConfusion hga
  · rw [h5] at hga; exact Bool.noConfusion hga
  · rw [h6] at hga; exact Bool.noConfusion hga
  · rw [h7] at hga; exact Bool.noConfusion hga
  · exact heq
  · rw [hg] at hgm; exact Bool.noConfusion hgm
  all_goals
    have hc := hn metricsMarker (by simp [allMarkers])
    rw [hg] at hc
    exact Bool.noConfusion hc

/-- C3 counterexample: the claim quantifies over EVERY line containing the
metrics marker, but (i) a line that also contains the higher-priority
summary marker takes the summary branch — the section changes and the
metrics are not stored — and (ii) on a metrics line whose `parts[1]` parses
as the integer 0 the stored value is the fallback 30, not the parsed 0
(JavaScript `parseInt(x) || 30` treats 0 as falsy). -/
theorem metrics_line_claim_counterexample :
    containsStr (jsTrim "🧠 Summary: see 📊 Metrics | 90 | 240 | 7".data) metricsMarker = true ∧
    (processLine initState "🧠 Summary: see 📊 Metrics | 90 | 240 | 7".data).currentSection ≠
      initState.currentSection ∧
    (processLine initState "🧠 Summary: see 📊 Metrics | 90 | 240 | 7".data).sections.metrics ≠
      { timeSavedMinutes := 90, linesProduced := 240, potentialErrorsMitigated := 7 } ∧
    jsParseInt "0".data = some 0 ∧
    (parseModelResponse "📊 Metrics | 0 | 240 | 7".data).metrics.timeSavedMinutes = 30 := by
  decide

/-- C3 (amended): for every line containing the metrics marker and none of
the seven higher-priority markers, the parser does not change the current
section; it splits the trimmed line on `'|'`, trims each part, and when at
least 4 parts result stores `parts[1..3]` parsed as integers with
fallbacks 30/0/5 applied when parsing fails or yields 0; the examples of
the claim hold as stated. -/
theorem metrics_line_behavior (st : ParseState) (l : Str)
    (hg : containsStr (jsTrim l) metricsMarker = true)
    (h1 : containsStr (jsTrim l) summaryMarker = false)
    (h2 : containsStr (jsTrim l) assumptionsMarker = false)
    (h3 : containsStr (jsTrim l) scriptMarker = false)
    (h4 : containsStr (jsTrim l) testsMarker = false)
    (h5 : containsStr (jsTrim l) dockerfileMarker = false)
    (h6 : containsStr (jsTrim l) cicdMarker = false)
    (h7 : containsStr (jsTrim l) failuresMarker = false) :
    (processLine st l).currentSection = st.currentSection ∧
    (processLine st l).sections.metrics =
      (if 4 ≤ ((splitOnChar '|' (jsTrim l)).map jsTrim).length
       then metricsOfParts ((splitOnChar '|' (jsTrim l)).map jsTrim)
       else st.sections.metrics) ∧
    (parseModelResponse "📊 Metrics | 90 | 240 | 7".data).metrics =
      { timeSavedMinutes := 90, linesProduced := 240, potentialErrorsMitigated := 7 } ∧
    (parseModelResponse "📊 Metrics | abc | 240 | 7".data).metrics =
      { timeSavedMinutes := 30, linesProduced := 240, potentialErrorsMitigated := 7 } := by
  have heq := processLine_metrics_branch st l hg h1 h2 h3 h4 h5 h6 h7
  refine ⟨?_, ?_, by decide, by decide⟩
  · rw [heq]; unfold metricsLineStep; split_ifs <;> rfl
  · rw [heq]; unfold metricsLineStep; split_ifs <;> rfl

/-- Witness for the amended C3 at a concrete metrics line. -/
theorem metrics_line_behavior_witness :
    (processLine initState "📊 Metrics | 90 | 240 | 7".data).currentSection =
      initState.currentSection ∧
    (processLine initState "📊 Metrics | 90 | 240 | 7".data).sections.metrics =
      (if 4 ≤ ((splitOnChar '|' (jsTrim "📊 Metrics | 90 | 240 | 7".data)).map jsTrim).length
       then metricsOfParts ((splitOnChar '|' (jsTrim "📊 Metrics | 90 | 240 | 7".data)).map jsTrim)
       else initState.sections.metrics) ∧
    (parseModelResponse "📊 Metrics | 90 | 240 | 7".data).metrics =
      { timeSavedMinutes := 90, linesProduced := 240, potentialErrorsMitigated := 7 } ∧
    (parseModelResponse "📊 Metrics | abc | 240 | 7".data).metrics =
      { timeSavedMinutes := 30, linesProduced := 240, potentialErrorsMitigated := 7 } :=
  metrics_line_behavior initState "📊 Metrics | 90 | 240 | 7".data
    (by decide) (by decide) (by decide) (by decide) (by decide) (by decide) (by decide) (by decide)

/-- C4 counterexample: on the metrics line `📊 Metrics | 0 | 240 | 0`,
`parts[1]` and `parts[3]` both parse successfully as the integer 0, yet the
stored values are the defaults 30 and 5 — `parseInt(x) || d` also replaces
a parsed 0, so the defaults are an enforcement at 0, not only an
absent/unparsable fallback. -/
theorem metrics_zero_fallback_counterexample :
    jsParseInt "0".data = some 0 ∧
    ((splitOnChar '|' (jsTrim "📊 Metrics | 0 | 240 | 0".data)).map jsTrim).length = 4 ∧
    ((splitOnChar '|' (jsTrim "📊 Metrics | 0 | 240 | 0".data)).map jsTrim).getD 1 [] =
      "0".data ∧
    ((splitOnChar '|' (jsTrim "📊 Metrics | 0 | 240 | 0".data)).map jsTrim).getD 3 [] =
      "0".data ∧
    (parseModelResponse "📊 Metrics | 0 | 240 | 0".data).metrics =
      { timeSavedMinutes := 30, linesProduced := 240, potentialErrorsMitigated := 5 } := by
  decide

/-- C4 (amended): the stored value equals the parsed value whenever
`parts[1]` (respectively `parts[3]`) of a `≥ 4`-part metrics line parses
successfully as a NONZERO integer; a parsed 0 (like an absent or
unparsable field) is replaced by the default. -/
theorem metrics_nonzero_parsed_value_stored (st : ParseState) (l : Str) (n m : Int)
    (hg : containsStr (jsTrim l) metricsMarker = true)
    (h1 : containsStr (jsTrim l) summaryMarker = false)
    (h2 : containsStr (jsTrim l) assumptionsMarker = false)
    (h3 : containsStr (jsTrim l) scriptMarker = false)
    (h4 : containsStr (jsTrim l) testsMarker = false)
    (h5 : containsStr (jsTrim l) dockerfileMarker = false)
    (h6 : containsStr (jsTrim l) cicdMarker = false)
    (h7 : containsStr (jsTrim l) failuresMarker = false)
    (hlen : 4 ≤ ((splitOnChar '|' (jsTrim l)).map jsTrim).length)
    (hn1 : jsParseInt (((splitOnChar '|' (jsTrim l)).map jsTrim).getD 1 []) = some n)
    (hn0 : n ≠ 0)
    (hm1 : jsParseInt (((splitOnChar '|' (jsTrim l)).map jsTrim).getD 3 []) = some m)
    (hm0 : m ≠ 0) :
    (processLine st l).sections.metrics.timeSavedMinutes = n ∧
    (processLine st l).sections.metrics.potentialErrorsMitigated = m := by
  have heq := processLine_metrics_branch st l hg h1 h2 h3 h4 h5 h6 h7
  rw [heq]
  unfold metricsLineStep
  rw [if_pos hlen]
  constructor
  · show jsOrElse (jsParseInt (((splitOnChar '|' (jsTrim l)).map jsTrim).getD 1 [])) 30 = n
    rw [hn1]
    simp only [jsOrElse]
    rw [if_neg hn0]
  · show jsOrElse (jsParseInt (((splitOnChar '|' (jsTrim l)).map jsTrim).getD 3 [])) 5 = m
    rw [hm1]
    simp only [jsOrElse]
    rw [if_neg hm0]

/-- Witness for the amended C4 at a concrete metrics line. -/
theorem metrics_nonzero_parsed_value_stored_witness :
    (processLine initState "📊 Metrics | 90 | 240 | 7".data).sections.metrics.timeSavedMinutes
      = 90 ∧
    (processLine initState
        "📊 Metrics | 90 | 240 | 7".data).sections.metrics.potentialErrorsMitigated = 7 :=
  metrics_nonzero_parsed_value_stored initState "📊 Metrics | 90 | 240 | 7".data 90 7
    (by decide) (by decide) (by decide) (by decide) (by decide) (by decide) (by decide)
    (by decide) (by decide) (by decide) (by decide) (by decide) (by decide)

theorem processLine_failures_branch (st : ParseState) (l : Str)
    (hcs : st.currentSection = some .failures)
    (hm : ∀ m ∈ allMarkers, containsStr (jsTrim l) m = false)
    (hb : ['-'].isPrefixOf (jsTrim l) = true) :
    processLine st l = failuresAccumStep st (jsTrim l) := by
  rcases processLine_cases st l with
      ⟨hga, heq⟩ | ⟨_, hga, heq⟩ | ⟨_, _, hga, heq⟩ | ⟨_, _, _, hga, heq⟩ |
      ⟨_, _, _, _, hga, heq⟩ | ⟨_, _, _, _, _, hga, heq⟩ | ⟨_, _, _, _, _, _, hga, heq⟩ |
      ⟨_, _, _, _, _, _, _, hga, heq⟩ | ⟨_, _, _, _, _, _, _, _, hga, heq⟩ |
      ⟨hn, hga, heq⟩ | ⟨hn, _, hga, heq⟩ | ⟨hn, _, _, hga, heq⟩ |
      ⟨hn, _, _, _, hga, heq⟩ | ⟨hn, _, _, _, _, hga, heq⟩ | ⟨hn, _, _, hnp12, _, _, heq⟩
  · rw [hm summaryMarker (by simp [allMarkers])] at hga; exact Bool.noConfusion hga
  · rw [hm assumptionsMarker (by simp [allMarkers])] at hga; exact Bool.noConfusion hga
  · rw [hm scriptMarker (by simp [allMarkers])] at hga; exact Bool.noConfusion hga
  · rw [hm testsMarker (by simp [allMarkers])] at hga; exact Bool.noConfusion hga
  · rw [hm dockerfileMarker (by simp [allMarkers])] at hga; exact Bool.noConfusion hga
  · rw [hm cicdMarker (by simp [allMarkers])] at hga; exact Bool.noConfusion hga
  · rw [hm failuresMarker (by simp [allMarkers])] at hga; exact Bool.noConfusion hga
  · rw [hm metricsMarker (by simp [allMarkers])] at hga; exact Bool.noConfusion hga
  · rw [hm usageMarker (by simp [allMarkers])] at hga; exact Bool.noConfusion hga
  · rw [hcs] at hga; exact absurd hga.1 (by decide)
  · rw [hcs] at hga; exact absurd hga.1 (by decide)
  · exact heq
  · rw [hcs] at hga; exact absurd hga (by decide)
  · rw [hcs] at hga; exact absurd hga.1 (by decide)
  · exact absurd ⟨hcs, hb⟩ hnp12

/-- C9: in the failures section, a non-marker bullet line is stripped of
its bullet and split on `'|'` with each part trimmed; with at least 3
parts a FailureSimulation from `parts[0..2]` is appended (extra parts
ignored), and with fewer than 3 parts the whole state is unchanged. -/
theorem failures_bullet_handling (st : ParseState) (l : Str)
    (hcs : st.currentSection = some .failures)
    (hm : ∀ m ∈ allMarkers, containsStr (jsTrim l) m = false)
    (hb : ['-'].isPrefixOf (jsTrim l) = true) :
    (processLine st l).sections.failureSimulations =
      (if 3 ≤ ((splitOnChar '|' ((jsTrim l).drop 1)).map jsTrim).length
       then st.sections.failureSimulations ++
         [{ scenario := ((splitOnChar '|' ((jsTrim l).drop 1)).map jsTrim).getD 0 [],
            trigger := ((splitOnChar '|' ((jsTrim l).drop 1)).map jsTrim).getD 1 [],
            behavior := ((splitOnChar '|' ((jsTrim l).drop 1)).map jsTrim).getD 2 [] }]
       else st.sections.failureSimulations) ∧
    (¬ 3 ≤ ((splitOnChar '|' ((jsTrim l).drop 1)).map jsTrim).length →
      processLine st l = st) := by
  rw [processLine_failures_branch st l hcs hm hb]
  unfold failuresAccumStep
  split_ifs with hc
  · exact ⟨rfl, fun hcon => absurd hc hcon⟩
  · exact ⟨rfl, fun _ => rfl⟩

/-- Witness for C9 at a concrete bullet line with 4 parts and the failures
section active. -/
theorem failures_bullet_handling_witness :
    (processLine { initState with currentSection := some SectionTag.failures }
        "- Disk full | ENOSPC on write | Retries with backoff | extra".data
        ).sections.failureSimulations =
      (if 3 ≤ ((splitOnChar '|'
            ((jsTrim "- Disk full | ENOSPC on write | Retries with backoff | extra".data).drop 1)
          ).map jsTrim).length
       then ({ initState with
          currentSection := some SectionTag.failures } : ParseState).sections.failureSimulations
         ++
         [{ scenario := ((splitOnChar '|'
              ((jsTrim "- Disk full | ENOSPC on write | Retries with backoff | extra".data).drop 1)
            ).map jsTrim).getD 0 [],
            trigger := ((splitOnChar '|'
              ((jsTrim "- Disk full | ENOSPC on write | Retries with backoff | extra".data).drop 1)
            ).map jsTrim).getD 1 [],
            behavior := ((splitOnChar '|'
              ((jsTrim "- Disk full | ENOSPC on write | Retries with backoff | extra".data).drop 1)
            ).map jsTrim).getD 2 [] }]
       else ({ initState with
          currentSection := some SectionTag.failures } : ParseState).sections.failureSimulations) ∧
    (¬ 3 ≤ ((splitOnChar '|'
          ((jsTrim "- Disk full | ENOSPC on write | Retries with backoff | extra".data).drop 1)
        ).map jsTrim).length →
      processLine { initState with currentSection := some SectionTag.failures }
        "- Disk full | ENOSPC on write | Retries with backoff | extra".data =
        { initState with currentSection := some SectionTag.failures }) :=
  failures_bullet_handling { initState with currentSection := some SectionTag.failures }
    "- Disk full | ENOSPC on write | Retries with backoff | extra".data
    (by decide) (by decide) (by decide)

theorem processLine_summary_accum_branch (st : ParseState) (l : Str)
    (hcs : st.currentSection = some .summary)
    (hm : ∀ m ∈ allMarkers, containsStr (jsTrim l) m = false)
    (hne : jsTrim l ≠ []) :
    processLine st l = summaryAccumStep st (jsTrim l) := by
  rcases processLine_cases st l with
      ⟨hga, heq⟩ | ⟨_, hga, heq⟩ | ⟨_, _, hga, heq⟩ | ⟨_, _, _, hga, heq⟩ |
      ⟨_, _, _, _, hga, heq⟩ | ⟨_, _, _, _, _, hga, heq⟩ | ⟨_, _, _, _, _, _, hga, heq⟩ |
      ⟨_, _, _, _, _, _, _, hga, heq⟩ | ⟨_, _, _, _, _, _, _, _, hga, heq⟩ |
      ⟨hn, hga, heq⟩ | ⟨hn, hnp10, hga, heq⟩ | ⟨hn, hnp10, _, hga, heq⟩ |
      ⟨hn, hnp10, _, _, hga, heq⟩ | ⟨hn, hnp10, _, _, _, hga, heq⟩ |
      ⟨hn, hnp10, _, _, _, _, heq⟩
  · rw [hm summaryMarker (by simp [allMarkers])] at hga; exact Bool.noConfusion hga
  · rw [hm assumptionsMarker (by simp [allMarkers])] at hga; exact Bool.noConfusion hga
  · rw [hm scriptMarker (by simp [allMarkers])] at hga; exact Bool.noConfusion hga
  · rw [hm testsMarker (by simp [allMarkers])] at hga; exact Bool.noConfusion hga
  · rw [hm dockerfileMarker (by simp [allMarkers])] at hga; exact Bool.noConfusion hga
  · rw [hm cicdMarker (by simp [allMarkers])] at hga; exact Bool.noConfusion hga
  · rw [hm failuresMarker (by simp [allMarkers])] at hga; exact Bool.noConfusion hga
  · rw [hm metricsMarker (by simp [allMarkers])] at hga; exact Bool.noConfusion hga
  · rw [hm usageMarker (by simp [allMarkers])] at hga; exact Bool.noConfusion hga
  · exact heq
  · exact absurd ⟨hcs, hne⟩ hnp10
  · exact absurd ⟨hcs, hne⟩ hnp10
  · exact absurd ⟨hcs, hne⟩ hnp10
  · exact absurd ⟨hcs, hne⟩ hnp10
  · exact absurd ⟨hcs, hne⟩ hnp10

/-- C10: in the summary section, a non-empty non-marker line is appended
(joined with a single separating space to a non-empty summary) exactly
when the trimmed line is not already a substring of the accumulated
summary; the two-line example of the claim holds. -/
theorem summary_dedup_append (st : ParseState) (l : Str)
    (hcs : st.currentSection = some .summary)
    (hm : ∀ m ∈ allMarkers, containsStr (jsTrim l) m = false)
    (hne : jsTrim l ≠ []) :
    (processLine st l).sections.summary =
      (if containsStr st.sections.summary (jsTrim l) then st.sections.summary
       else st.sections.summary ++
         (if st.sections.summary = [] then [] else [' ']) ++ jsTrim l) ∧
    (processLine st l).currentSection = st.currentSection ∧
    (parseModelResponse
        "🧠 Summary: Builds a backup tool.\nHandles retries too.".data).summary =
      "Builds a backup tool. Handles retries too.".data := by
  rw [processLine_summary_accum_branch st l hcs hm hne]
  refine ⟨?_, ?_, by decide⟩
  · unfold summaryAccumStep; split_ifs <;> rfl
  · unfold summaryAccumStep; split_ifs <;> rfl

/-- Witness for C10: appending a fresh second summary line to a non-empty
summary. -/
theorem summary_dedup_append_witness :
    (processLine
        { initState with
          currentSection := some SectionTag.summary,
          sections := { initResponse with summary := "Builds a backup tool.".data } }
        "Handles retries too.".data).sections.summary =
      (if containsStr
            ({ initState with
         currentSection := some SectionTag.summary,
         sections := { initResponse with summary := "Builds a backup tool.".data } } : ParseState).sections.summary
            (jsTrim "Handles retries too.".data)
       then ({ initState with
               currentSection := some SectionTag.summary,
               sections := { initResponse with
                 summary := "Builds a backup tool.".data } } : ParseState).sections.summary
       else ({ initState with
               currentSection := some SectionTag.summary,
               sections := { initResponse with
                 summary := "Builds a backup tool.".data } } : ParseState).sections.summary ++
         (if ({ initState with
                currentSection := some SectionTag.summary,
                sections := { initResponse with
                  summary := "Builds a backup tool.".data } } : ParseState).sections.summary = []
          then [] else [' ']) ++ jsTrim "Handles retries too.".data) ∧
    (processLine
        { initState with
          currentSection := some SectionTag.summary,
          sections := { initResponse with summary := "Builds a backup tool.".data } }
        "Handles retries too.".data).currentSection =
      ({ initState with
         currentSection := some SectionTag.summary,
         sections := { initResponse with
           summary := "Builds a backup tool.".data } } : ParseState).currentSection ∧
    (parseModelResponse
        "🧠 Summary: Builds a backup tool.\nHandles retries too.".data).summary =
      "Builds a backup tool. Handles retries too.".data :=
  summary_dedup_append
    { initState with
      currentSection := some SectionTag.summary,
      sections := { initResponse with summary := "Builds a backup tool.".data } }
    "Handles retries too.".data (by decide) (by decide) (by decide)




theorem processLine_code_branch (st : ParseState) (l : Str)
    (hcs : isCodeSection st.currentSection = true)
    (hm : ∀ m ∈ allMarkers, containsStr (jsTrim l) m = false) :
    processLine st l = codeLineStep st l (jsTrim l) := by
  rcases processLine_cases st l with
      ⟨hga, heq⟩ | ⟨_, hga, heq⟩ | ⟨_, _, hga, heq⟩ | ⟨_, _, _, hga, heq⟩ |
      ⟨_, _, _, _, hga, heq⟩ | ⟨_, _, _, _, _, hga, heq⟩ | ⟨_, _, _, _, _, _, hga, heq⟩ |
      ⟨_, _, _, _, _, _, _, hga, heq⟩ | ⟨_, _, _, _, _, _, _, _, hga, heq⟩ |
      ⟨hn, hga, heq⟩ | ⟨hn, _, hga, heq⟩ | ⟨hn, _, _, hga, heq⟩ |
      ⟨hn, _, _, _, hga, heq⟩ | ⟨hn, _, _, _, h13f, hga, heq⟩ |
      ⟨hn, _, _, _, h13f, _, heq⟩
  · rw [hm summaryMarker (by simp [allMarkers])] at hga; exact Bool.noConfusion hga
  · rw [hm assumptionsMarker (by simp [allMarkers])] at hga; exact Bool.noConfusion hga
  · rw [hm scriptMarker (by simp [allMarkers])] at hga; exact Bool.noConfusion hga
  · rw [hm testsMarker (by simp [allMarkers])] at hga; exact Bool.noConfusion hga
  · rw [hm dockerfileMarker (by simp [allMarkers])] at hga; exact Bool.noConfusion hga
  · rw [hm cicdMarker (by simp [allMarkers])] at hga; exact Bool.noConfusion hga
  · rw [hm failuresMarker (by simp [allMarkers])] at hga; exact Bool.noConfusion hga
  · rw [hm metricsMarker (by simp [allMarkers])] at hga; exact Bool.noConfusion hga
  · rw [hm usageMarker (by simp [allMarkers])] at hga; exact Bool.noConfusion hga
  · rw [hga.1] at hcs; exact absurd hcs (by decide)
  · rw [hga.1] at hcs; exact absurd hcs (by decide)
  · rw [hga.1] at hcs; exact absurd hcs (by decide)
  · exact heq
  · rw [hcs] at h13f; exact Bool.noConfusion h13f
  · rw [hcs] at h13f; exact Bool.noConfusion h13f

theorem appendCodeLine_tests_of_eq (s : ScriptResponse) (line : Str) :
    (appendCodeLine s (some .tests) line).tests = s.tests ++ line ++ ['\n'] := by
  simp only [appendCodeLine]; split_ifs <;> simp_all

theorem appendCodeLine_dockerfile_of_eq (s : ScriptResponse) (line : Str) :
    (appendCodeLine s (some .dockerfile) line).dockerfile = s.dockerfile ++ line ++ ['\n'] := by
  simp only [appendCodeLine]; split_ifs <;> simp_all

theorem appendCodeLine_cicd_of_eq (s : ScriptResponse) (line : Str) :
    (appendCodeLine s (some .cicd) line).cicd = s.cicd ++ line ++ ['\n'] := by
  simp only [appendCodeLine]; split_ifs <;> simp_all

/-- C7 counterexample: the source toggles `inCodeBlock` for ANY trimmed
line starting with three backticks, not only for lines consisting solely
of a fence marker with an optional language tag: the line
` ``` not a language tag ` is not of the claimed fence form, contains no
marker, yet in the script section it is NOT appended and it toggles
`inCodeBlock`, where the claim requires it to be appended verbatim with
`inCodeBlock` unchanged. -/
theorem fence_line_claim_counterexample :
    specFenceLine (jsTrim "``` not a language tag".data) = false ∧
    containsAnyMarker (jsTrim "``` not a language tag".data) = false ∧
    isCodeSection exScriptState.currentSection = true ∧
    (processLine exScriptState "``` not a language tag".data).sections.script = [] ∧
    (processLine exScriptState "``` not a language tag".data).sections.script ≠
      exScriptState.sections.script ++ "``` not a language tag".data ++ ['\n'] ∧
    (processLine exScriptState "``` not a language tag".data).inCodeBlock =
      !exScriptState.inCodeBlock := by
  decide

/-- C7 (amended): while the current section is one of
script/tests/dockerfile/cicd and the line matches no marker, a line whose
TRIMMED FORM STARTS WITH three backticks toggles `inCodeBlock` and is not
appended; every other line is appended verbatim (original non-trimmed
content plus a newline) to the active section's buffer, regardless of
`inCodeBlock`; the fenced-script example of the claim holds. -/
theorem code_section_line_handling (st : ParseState) (l : Str)
    (hcs : isCodeSection st.currentSection = true)
    (hm : ∀ m ∈ allMarkers, containsStr (jsTrim l) m = false) :
    (fenceTok.isPrefixOf (jsTrim l) = true →
      processLine st l = { st with inCodeBlock := !st.inCodeBlock }) ∧
    (fenceTok.isPrefixOf (jsTrim l) = false →
      (processLine st l).inCodeBlock = st.inCodeBlock ∧
      (processLine st l).currentSection = st.currentSection ∧
      (st.currentSection = some .script →
        (processLine st l).sections.script = st.sections.script ++ l ++ ['\n']) ∧
      (st.currentSection = some .tests →
        (processLine st l).sections.tests = st.sections.tests ++ l ++ ['\n']) ∧
      (st.currentSection = some .dockerfile →
        (processLine st l).sections.dockerfile = st.sections.dockerfile ++ l ++ ['\n']) ∧
      (st.currentSection = some .cicd →
        (processLine st l).sections.cicd = st.sections.cicd ++ l ++ ['\n'])) ∧
    (parseModelResponse "📜 Script:\n```python\nprint(1)\n```".data).script =
      "print(1)".data := by
  have heq := processLine_code_branch st l hcs hm
  refine ⟨?_, ?_, by decide⟩
  · intro hf
    rw [heq]; unfold codeLineStep; rw [if_pos hf]
  · intro hf
    rw [heq]; unfold codeLineStep; rw [if_neg (by simp [hf])]
    refine ⟨rfl, rfl, ?_, ?_, ?_, ?_⟩
    · intro h
      show (appendCodeLine st.sections st.currentSection l).script = _
      rw [h]
      exact appendCodeLine_script_of_eq _ _
    · intro h
      show (appendCodeLine st.sections st.currentSection l).tests = _
      rw [h]
      exact appendCodeLine_tests_of_eq _ _
    · intro h
      show (appendCodeLine st.sections st.currentSection l).dockerfile = _
      rw [h]
      exact appendCodeLine_dockerfile_of_eq _ _
    · intro h
      show (appendCodeLine st.sections st.currentSection l).cicd = _
      rw [h]
      exact appendCodeLine_cicd_of_eq _ _

/-- Witness for the amended C7: a plain code line in the script section. -/
theorem code_section_line_handling_witness :
    (fenceTok.isPrefixOf (jsTrim "print(1)".data) = true →
      processLine exScriptState "print(1)".data =
        { exScriptState with inCodeBlock := !exScriptState.inCodeBlock }) ∧
    (fenceTok.isPrefixOf (jsTrim "print(1)".data) = false →
      (processLine exScriptState "print(1)".data).inCodeBlock = exScriptState.inCodeBlock ∧
      (processLine exScriptState "print(1)".data).currentSection =
        exScriptState.currentSection ∧
      (exScriptState.currentSection = some .script →
        (processLine exScriptState "print(1)".data).sections.script =
          exScriptState.sections.script ++ "print(1)".data ++ ['\n']) ∧
      (exScriptState.currentSection = some .tests →
        (processLine exScriptState "print(1)".data).sections.tests =
          exScriptState.sections.tests ++ "print(1)".data ++ ['\n']) ∧
      (exScriptState.currentSection = some .dockerfile →
        (processLine exScriptState "print(1)".data).sections.dockerfile =
          exScriptState.sections.dockerfile ++ "print(1)".data ++ ['\n']) ∧
      (exScriptState.currentSection = some .cicd →
        (processLine exScriptState "print(1)".data).sections.cicd =
          exScriptState.sections.cicd ++ "print(1)".data ++ ['\n'])) ∧
    (parseModelResponse "📜 Script:\n```python\nprint(1)\n```".data).script =
      "print(1)".data :=
  code_section_line_handling exScriptState "print(1)".data (by decide) (by decide)

theorem headNonWS_ne_nil {m : Str} (h : headNonWS m = true) : m ≠ [] := by
  cases m with
  | nil => simp [headNonWS] at h
  | cons c r => simp

theorem processLine_initState_of_no_marker {l : Str}
    (hm : ∀ m ∈ allMarkers, containsStr (jsTrim l) m = false) :
    processLine initState l = initState := by
  rcases processLine_cases initState l with
      ⟨hga, heq⟩ | ⟨_, hga, heq⟩ | ⟨_, _, hga, heq⟩ | ⟨_, _, _, hga, heq⟩ |
      ⟨_, _, _, _, hga, heq⟩ | ⟨_, _, _, _, _, hga, heq⟩ | ⟨_, _, _, _, _, _, hga, heq⟩ |
      ⟨_, _, _, _, _, _, _, hga, heq⟩ | ⟨_, _, _, _, _, _, _, _, hga, heq⟩ |
      ⟨hn, hga, heq⟩ | ⟨hn, _, hga, heq⟩ | ⟨hn, _, _, hga, heq⟩ |
      ⟨hn, _, _, _, hga, heq⟩ | ⟨hn, _, _, _, _, hga, heq⟩ | ⟨hn, _, _, _, _, _, heq⟩
  · rw [hm summaryMarker (by simp [allMarkers])] at hga; exact Bool.noConfusion hga
  · rw [hm assumptionsMarker (by simp [allMarkers])] at hga; exact Bool.noConfusion hga
  · rw [hm scriptMarker (by simp [allMarkers])] at hga; exact Bool.noConfusion hga
  · rw [hm testsMarker (by simp [allMarkers])] at hga; exact Bool.noConfusion hga
  · rw [hm dockerfileMarker (by simp [allMarkers])] at hga; exact Bool.noConfusion hga
  · rw [hm cicdMarker (by simp [allMarkers])] at hga; exact Bool.noConfusion hga
  · rw [hm failuresMarker (by simp [allMarkers])] at hga; exact Bool.noConfusion hga
  · rw [hm metricsMarker (by simp [allMarkers])] at hga; exact Bool.noConfusion hga
  · rw [hm usageMarker (by simp [allMarkers])] at hga; exact Bool.noConfusion hga
  · exact absurd hga.1 (by decide)
  · exact absurd hga.1 (by decide)
  · exact absurd hga.1 (by decide)
  · exact absurd hga (by decide)
  · exact absurd hga.1 (by decide)
  · exact heq

theorem parseFold_initState_of_no_marker (t : Str)
    (hm : ∀ l ∈ splitOnChar '\n' t, ∀ m ∈ allMarkers, containsStr (jsTrim l) m = false) :
    parseFold t = initState := by
  exact @foldl_processLine_inv (fun st => st = initState) (splitOnChar '\n' t) initState
    (fun s l hl hInv => by rw [hInv]; exact processLine_initState_of_no_marker (hm l hl))
    rfl

theorem processLine_script_clean {st : ParseState} {l : Str}
    (hInv : (∀ m ∈ allMarkers, ¬ m <:+: st.sections.script) ∧
      (st.sections.script = [] ∨ ∃ b, st.sections.script = b ++ ['\n'])) :
    (∀ m ∈ allMarkers, ¬ m <:+: (processLine st l).sections.script) ∧
    ((processLine st l).sections.script = [] ∨
      ∃ b, (processLine st l).sections.script = b ++ ['\n']) := by
  rcases processLine_cases st l with
      ⟨hga, heq⟩ | ⟨_, hga, heq⟩ | ⟨_, _, hga, heq⟩ | ⟨_, _, _, hga, heq⟩ |
      ⟨_, _, _, _, hga, heq⟩ | ⟨_, _, _, _, _, hga, heq⟩ | ⟨_, _, _, _, _, _, hga, heq⟩ |
      ⟨_, _, _, _, _, _, _, hga, heq⟩ | ⟨_, _, _, _, _, _, _, _, hga, heq⟩ |
      ⟨hn, hga, heq⟩ | ⟨hn, _, hga, heq⟩ | ⟨hn, _, _, hga, heq⟩ |
      ⟨hn, _, _, _, hga, heq⟩ | ⟨hn, _, _, _, _, hga, heq⟩ | ⟨hn, _, _, _, _, _, heq⟩
  · rw [heq]; exact hInv
  · rw [heq]; exact hInv
  · rw [heq]; exact hInv
  · rw [heq]; exact hInv
  · rw [heq]; exact hInv
  · rw [heq]; exact hInv
  · rw [heq]; exact hInv
  · rw [heq]; unfold metricsLineStep; split_ifs <;> exact hInv
  · rw [heq]; exact hInv
  · rw [heq]; unfold summaryAccumStep; split_ifs <;> exact hInv
  · rw [heq]; exact hInv
  · rw [heq]; unfold failuresAccumStep; split_ifs <;> exact hInv
  · rw [heq]; unfold codeLineStep; split_ifs with hf
    · exact hInv
    · by_cases hsc : st.currentSection = some SectionTag.script
      · have hscript : (appendCodeLine st.sections st.currentSection l).script =
            st.sections.script ++ l ++ ['\n'] := by
          rw [hsc]; exact appendCodeLine_script_of_eq _ _
        constructor
        · intro m hmem hbad
          obtain ⟨hh1, hh2, hh3⟩ := marker_shape m hmem
          have hml : ¬ m <:+: l :=
            not_infix_of_containsStr_trim_false hh1 hh2 (hn m hmem)
          have hmne : m ≠ [] := headNonWS_ne_nil hh1
          have hbad0 : m <:+: st.sections.script ++ l ++ ['\n'] := by
            rw [← hscript]; exact hbad
          rcases hInv.2 with hemp | ⟨b, hb⟩
          · rw [hemp, List.nil_append] at hbad0
            have hbad' : m <:+: l ++ '\n' :: [] := by simpa using hbad0
            rcases infix_through_not_mem hh3 hbad' with h | h
            · exact hml h
            · exact hmne (List.infix_nil.mp h)
          · rw [hb] at hbad0
            have hbad' : m <:+: b ++ '\n' :: (l ++ ['\n']) := by
              have hassoc : (b ++ ['\n']) ++ l ++ ['\n'] = b ++ '\n' :: (l ++ ['\n']) := by
                simp
              rwa [hassoc] at hbad0
            rcases infix_through_not_mem hh3 hbad' with h | h
            · have hbsub : b <:+: st.sections.script := ⟨[], ['\n'], by rw [hb]; simp⟩
              exact hInv.1 m hmem (h.trans hbsub)
            · have h2 : m <:+: l ++ '\n' :: [] := by simpa using h
              rcases infix_through_not_mem hh3 h2 with h3 | h3
              · exact hml h3
              · exact hmne (List.infix_nil.mp h3)
        · right
          refine ⟨st.sections.script ++ l, ?_⟩
          show (appendCodeLine st.sections st.currentSection l).script = _
          rw [hscript]
      · have hscript : (appendCodeLine st.sections st.currentSection l).script =
            st.sections.script := appendCodeLine_script_of_ne _ _ hsc
        constructor
        · intro m hmem
          show ¬ m <:+: (appendCodeLine st.sections st.currentSection l).script
          rw [hscript]
          exact hInv.1 m hmem
        · show (appendCodeLine st.sections st.currentSection l).script = [] ∨
            ∃ b, (appendCodeLine st.sections st.currentSection l).script = b ++ ['\n']
          rw [hscript]
          exact hInv.2
  · rw [heq]; exact hInv
  · rw [heq]; exact hInv

theorem parseFold_script_marker_free (text : Str) :
    ∀ m ∈ allMarkers, ¬ m <:+: (parseFold text).sections.script := by
  have h := @foldl_processLine_inv
    (fun st => (∀ m ∈ allMarkers, ¬ m <:+: st.sections.script) ∧
      (st.sections.script = [] ∨ ∃ b, st.sections.script = b ++ ['\n']))
    (splitOnChar '\n' text) initState
    (fun s l _ hInv => processLine_script_clean hInv)
    ⟨fun m hm hbad =>
        headNonWS_ne_nil (marker_shape m hm).1 (List.infix_nil.mp hbad),
      Or.inl rfl⟩
  exact h.1

/-- C6: round-trip emptiness — for every input text, the extracted script
contains no marker substring, so feeding it back into the parser as a
fresh input captures nothing and the resulting script field is empty. -/
theorem script_reparse_empty (text : Str) :
    (parseModelResponse (parseModelResponse text).script).script = [] := by
  have hbuf : (parseModelResponse text).script = jsTrim (parseFold text).sections.script := by
    show (finalizeResponse (parseFold text).sections).script = _
    rw [finalizeResponse_script]
  have hfree := parseFold_script_marker_free text
  have hlines : ∀ l ∈ splitOnChar '\n' ((parseModelResponse text).script),
      ∀ m ∈ allMarkers, containsStr (jsTrim l) m = false := by
    intro l hl m hm
    cases hc : containsStr (jsTrim l) m with
    | false => rfl
    | true =>
      exfalso
      have h1 : m <:+: jsTrim l := (containsStr_true_iff _ _).mp hc
      have h2 : jsTrim l <:+: l := jsTrim_infixOf l
      have h3 : l <:+: (parseModelResponse text).script :=
        mem_splitOnChar_infixOf _ _ l hl
      have h4 : (parseModelResponse text).script <:+: (parseFold text).sections.script := by
        rw [hbuf]; exact jsTrim_infixOf _
      exact hfree m hm (((h1.trans h2).trans h3).trans h4)
  have hfold := parseFold_initState_of_no_marker _ hlines
  show (finalizeResponse (parseFold ((parseModelResponse text).script)).sections).script = []
  rw [hfold, finalizeResponse_script]
  rfl
